import Mathlib

/-!
Verification development for the `jellyfin_export` tree-mirroring engine
(`jellyfin_export/exporter.py`, `jellyfin_export/utils.py`).

The Python source is shallowly embedded: the catalog ("Drive Entity" rows)
becomes an association list from identifiers to records, the export ledger
("Jellyfin Export Map") an association list keyed by source identifier, and
the filesystem an association list from path strings to nodes carrying a
device/inode identity.  Python strings are Lean `String`s; `None`-able
fields are `Option`s; Python truthiness of strings/ints is modelled by
explicit emptiness / zero tests at each use site, mirroring the source.
Loops that walk parent pointers are embedded with an explicit fuel that is
provably larger than the number of productive iterations the corresponding
Python loop can make (each productive iteration consumes a distinct catalog
key), so the fuel never runs out on the cases the Python code terminates on.
-/

namespace JE

/-! ## Character and string helpers

Python's `str.strip()` (ASCII whitespace), `str.lower()` (ASCII case),
`os.path.join`, `os.path.dirname` and `os.path.splitext` (POSIX, `sep = '/'`,
`extsep = '.'`) are re-implemented on the character lists underlying `String`
so that all definitions compute inside the kernel. -/

def isWS (c : Char) : Bool :=
  c = ' ' || c = '\t' || c = '\n' || c = '\r' || c = '\x0b' || c = '\x0c'

/-- Strip `isWS` characters from both ends of a character list (Python `str.strip()`). -/
def stripChars (l : List Char) : List Char :=
  ((l.dropWhile isWS).reverse.dropWhile isWS).reverse

def strTrim (s : String) : String := String.mk (stripChars s.toList)

def lcChar (c : Char) : Char :=
  if 'A' ≤ c ∧ c ≤ 'Z' then Char.ofNat (c.toNat + 32) else c

def strLower (s : String) : String := String.mk (s.toList.map lcChar)

def strStartsWithDot (s : String) : Bool :=
  match s.toList with
  | [] => false
  | c :: _ => c = '.'

/-- Index of the last occurrence of `c` in `l`, as Python `str.rfind` (−1 when absent). -/
def rfindIdx (l : List Char) (c : Char) : Int :=
  match l.reverse.findIdx? (· = c) with
  | none => -1
  | some i => (l.length : Int) - 1 - i

/-- POSIX `os.path.splitext`: split at the last `'.'` that lies after the last
`'/'`, unless the basename consists only of leading dots up to it. -/
def pathSplitExt (p : String) : String × String :=
  let l := p.toList
  let sepIdx := rfindIdx l '/'
  let dotIdx := rfindIdx l '.'
  if dotIdx > sepIdx then
    -- skip leading dots of the basename; an all-dots prefix gives no extension
    let fnameStart := (sepIdx + 1).toNat
    let k := dotIdx.toNat
    if (List.range (k - fnameStart)).any (fun j => l.get? (fnameStart + j) ≠ some '.') then
      (String.mk (l.take k), String.mk (l.drop k))
    else (p, "")
  else (p, "")

/-- POSIX `os.path.join` for the absolute-path shapes the exporter builds
(no component is empty or absolute except the first). -/
def pjoin (a b : String) : String := a ++ "/" ++ b

def pjoinParts (base : String) (parts : List String) : String :=
  parts.foldl pjoin base

/-- POSIX `os.path.dirname`: everything before the last `'/'` (empty when there is none). -/
def dirname (p : String) : String :=
  let l := p.toList
  match rfindIdx l '/' with
  | Int.negSucc _ => ""
  | Int.ofNat i => String.mk (l.take i)

/-! ## `utils.py`: extension sets, `safe_name`, `split_ext` -/

def DEFAULT_VIDEO_EXTS : List String := [".mp4", ".mkv", ".avi", ".mov", ".webm", ".m4v"]
def DEFAULT_SUB_EXTS : List String := [".srt", ".ass", ".ssa", ".vtt", ".sub"]
def DEFAULT_IMG_EXTS : List String := [".jpg", ".jpeg", ".png", ".webp"]

/-- Characters replaced by `'_'` in `safe_name` (`re.sub(r'[\/\\:*?"<>|]', "_", name)`). -/
def isBadChar (c : Char) : Bool :=
  c = '/' || c = '\\' || c = ':' || c = '*' || c = '?' || c = '"' || c = '<' || c = '>' || c = '|'

def badToUnderscore (c : Char) : Char := if isBadChar c then '_' else c

/-- Embedding of `utils.safe_name`: drop NUL bytes, strip whitespace, replace
filesystem-unsafe characters by `'_'`, and default an empty result to `"untitled"`. -/
def safe_name (s : String) : String :=
  let n := (stripChars (s.toList.filter (fun c => c ≠ '\x00'))).map badToUnderscore
  if n.isEmpty then "untitled" else String.mk n

/-- Embedding of `utils.split_ext`: a non-empty stored extension wins
(lower-cased, dot-prefixed), otherwise the extension is derived from the title. -/
def split_ext (title : String) (file_ext : Option String) : String :=
  match file_ext with
  | some fe =>
    if fe ≠ "" then
      let e := strLower (strTrim fe)
      if strStartsWithDot e then e else "." ++ e
    else strLower (pathSplitExt title).2
  | none => strLower (pathSplitExt title).2

/-! ## Catalog model ("Drive Entity") -/

/-- A source catalog row, with the fields the exporter reads.  `is_active` is
the tri-state integer of the source; `trashed_on` is `some t` exactly when the
row carries a (truthy) trash timestamp; `path` is `""` for Python `None`
(the code only ever reads it through `ent.path or ""`). -/
structure EntityInfo where
  title : String
  parent_drive_entity : Option String
  is_active : Int
  trashed_on : Option Nat
  is_group : Bool
  path : String
  file_ext : Option String
  lft : Option Int
  rgt : Option Int
deriving DecidableEq, Repr

/-- The catalog: identifier-keyed association list (`name` column is the key). -/
abbrev EntEnv := List (String × EntityInfo)

/-- Python truthiness of a nullable integer column (`None` and `0` are falsy). -/
def truthyI : Option Int → Bool
  | none => false
  | some v => v ≠ 0

/-- A cached row of `PATH_CACHE`: exactly the fields `build_path_cache` stores. -/
structure CacheEntry where
  title : String
  parent_drive_entity : Option String
  is_active : Int
  trashed_on : Option Nat
  name : String
deriving DecidableEq, Repr

/-- The fields `_build_rel_parts` reads from an ancestor (cache hit or point lookup). -/
structure PathInfo where
  title : String
  parent : Option String
  is_active : Int
  trashed_on : Option Nat
deriving DecidableEq, Repr

/-- Embedding of `_get_entity_info`: prefer the `PATH_CACHE` entry, fall back to a
catalog lookup.  A lookup miss is modelled as `none`; in the source that miss
makes `frappe.get_doc` raise `DoesNotExistError` (cache values are non-empty
dicts and `get_doc` never returns a falsy value, so the `if not info` guard in
`_build_rel_parts` is unreachable).  The walker below conflates that raised
exception with its INVALID outcome, so theorems about the INVALID outcome
restrict themselves to walks on which no miss occurs (`walk_misses = false`) —
a restriction every concrete instantiation in this file satisfies.  The stored
`name` field always equals the lookup key (`build_path_cache` keys rows by
their own `name` and `frappe.get_doc(name)` returns a document named `name`),
so the walker compares the key itself against `stop_at`. -/
def entity_look (cache : List (String × CacheEntry)) (env : EntEnv) (n : String) :
    Option PathInfo :=
  match List.lookup n cache with
  | some c => some ⟨c.title, c.parent_drive_entity, c.is_active, c.trashed_on⟩
  | none => (List.lookup n env).map
      (fun e => ⟨e.title, e.parent_drive_entity, e.is_active, e.trashed_on⟩)

/-! ## `_build_rel_parts`

The `while cur and cur not in seen` loop of `exporter._build_rel_parts`.
Every iteration that recurses has looked `cur` up successfully and added it to
`seen`, so at most one iteration more than the number of keys `look` can answer
ever runs; callers pass a fuel strictly larger than that, hence the fuel-out
branch (which mirrors the loop exit) is never taken on the embedded calls.
The `| none => none` branch conflates the `DoesNotExistError` raised on a
lookup miss with the INVALID (`None`) return; `walk_misses` below detects that
branch, and theorems about the INVALID outcome exclude it. -/
def build_rel_go (look : String → Option PathInfo) (stop_at : String) :
    Nat → List String → List String → Option String → Option (List String)
  | 0, _, parts, _ => some parts.reverse
  | _ + 1, _, parts, none => some parts.reverse
  | fuel + 1, seen, parts, some c =>
    if c = "" then some parts.reverse
    else if c ∈ seen then some parts.reverse
    else
      match look c with
      | none => none
      | some info =>
        if info.is_active ≠ 1 ∨ info.trashed_on.isSome then none
        else if c = stop_at then some parts.reverse
        else build_rel_go look stop_at fuel (c :: seen) (parts ++ [safe_name info.title])
          info.parent

/-- Embedding of `exporter._build_rel_parts` (`None` = invalid ancestor chain). -/
def build_rel_parts (look : String → Option PathInfo) (fuel : Nat)
    (entity stop_at : String) : Option (List String) :=
  build_rel_go look stop_at fuel [] [] (some entity)

/-- Mirror of the walk of `_build_rel_parts` that reports only whether the walk
runs into a missing, inactive or trashed node before it stops (at the stop
node, an empty/null parent, or an already-seen identifier). -/
def walk_hits_invalid (look : String → Option PathInfo) (stop_at : String) :
    Nat → List String → Option String → Bool
  | 0, _, _ => false
  | _ + 1, _, none => false
  | fuel + 1, seen, some c =>
    if c = "" then false
    else if c ∈ seen then false
    else
      match look c with
      | none => true
      | some info =>
        if info.is_active ≠ 1 ∨ info.trashed_on.isSome then true
        else if c = stop_at then false
        else walk_hits_invalid look stop_at fuel (c :: seen) info.parent

/-- The walk reaches an identifier held by neither the cache nor the catalog.
At that point the source's `_get_entity_info` falls back to `frappe.get_doc`,
which raises `DoesNotExistError` — the walk never returns there. -/
def walk_misses (look : String → Option PathInfo) (stop_at : String) :
    Nat → List String → Option String → Bool
  | 0, _, _ => false
  | _ + 1, _, none => false
  | fuel + 1, seen, some c =>
    if c = "" then false
    else if c ∈ seen then false
    else
      match look c with
      | none => true
      | some info =>
        if info.is_active ≠ 1 ∨ info.trashed_on.isSome then false
        else if c = stop_at then false
        else walk_misses look stop_at fuel (c :: seen) info.parent

/-- The walk runs into an inactive or trashed node (every node it visits up to
that point having been found), before it stops at the stop node, an empty/null
parent, or an already-seen identifier. -/
def walk_hits_bad (look : String → Option PathInfo) (stop_at : String) :
    Nat → List String → Option String → Bool
  | 0, _, _ => false
  | _ + 1, _, none => false
  | fuel + 1, seen, some c =>
    if c = "" then false
    else if c ∈ seen then false
    else
      match look c with
      | none => false
      | some info =>
        if info.is_active ≠ 1 ∨ info.trashed_on.isSome then true
        else if c = stop_at then false
        else walk_hits_bad look stop_at fuel (c :: seen) info.parent

/-! ## Filesystem model

Paths are plain strings.  Every file or directory node carries a
device/inode pair, so hardlink identity (`os.stat` + `st_dev`/`st_ino`)
is expressible; symlinks carry their target.  `nextIno` supplies fresh
inode numbers for newly created nodes; `baseDev` is the device the export
area lives on (newly created directories and copied files land there). -/

inductive FNode where
  | file (dev ino : Nat)
  | dir (dev ino : Nat)
  | symlink (target : String)
deriving DecidableEq, Repr

structure FS where
  entries : List (String × FNode)
  nextIno : Nat
  baseDev : Nat
deriving DecidableEq, Repr

/-- Dictionary insert: the new binding shadows (replaces) any old binding of the key. -/
def dictInsert {α : Type} (l : List (String × α)) (k : String) (v : α) :
    List (String × α) :=
  (k, v) :: l.filter (fun e => !(e.1 == k))

def FS.lookup (fs : FS) (p : String) : Option FNode := List.lookup p fs.entries

/-- `os.path.lexists`: the path itself is present (symlinks not followed). -/
def FS.lexists (fs : FS) (p : String) : Bool := (fs.lookup p).isSome

/-- Resolve a path to the device/inode of the file or directory it denotes,
following symlinks (with fuel bounding chain length, as the OS bounds it). -/
def FS.statNode (fs : FS) : Nat → String → Option (Nat × Nat)
  | 0, _ => none
  | fuel + 1, p =>
    match fs.lookup p with
    | some (.file d i) => some (d, i)
    | some (.dir d i) => some (d, i)
    | some (.symlink t) => fs.statNode fuel t
    | none => none

def FS.stat (fs : FS) (p : String) : Option (Nat × Nat) :=
  fs.statNode (fs.entries.length + 1) p

/-- `os.path.exists`: resolves (following symlinks) to an existing node. -/
def FS.pexists (fs : FS) (p : String) : Bool := (fs.stat p).isSome

def FS.islink (fs : FS) (p : String) : Bool :=
  match fs.lookup p with
  | some (.symlink _) => true
  | _ => false

def FS.resolvesToFileGo (fs : FS) : Nat → String → Bool
  | 0, _ => false
  | fuel + 1, p =>
    match fs.lookup p with
    | some (.file _ _) => true
    | some (.symlink t) => fs.resolvesToFileGo fuel t
    | _ => false

/-- `os.path.isfile`: resolves (through symlinks) to a regular file. -/
def FS.resolvesToFile (fs : FS) (p : String) : Bool :=
  fs.resolvesToFileGo (fs.entries.length + 1) p

def FS.resolvesToDirGo (fs : FS) : Nat → String → Bool
  | 0, _ => false
  | fuel + 1, p =>
    match fs.lookup p with
    | some (.dir _ _) => true
    | some (.symlink t) => fs.resolvesToDirGo fuel t
    | _ => false

/-- `os.path.isdir`: resolves (through symlinks) to a directory. -/
def FS.isdir (fs : FS) (p : String) : Bool :=
  fs.resolvesToDirGo (fs.entries.length + 1) p

/-- Embedding of `utils.same_filesystem`: both stats succeed and agree on the device. -/
def same_filesystem (fs : FS) (a b : String) : Bool :=
  match fs.stat a, fs.stat b with
  | some x, some y => x.1 = y.1
  | _, _ => false

/-- Embedding of `exporter._same_inode`: both stats succeed and agree on device and inode. -/
def same_inode (fs : FS) (a b : String) : Bool :=
  match fs.stat a, fs.stat b with
  | some x, some y => x = y
  | _, _ => false

/-- Embedding of `exporter._remove_path_safely`: unlink a file or symlink,
recursively remove a directory (the directory entry and everything strictly
below it), silently tolerate anything else. -/
def remove_path_safely (fs : FS) (p : String) : FS :=
  if p = "" then fs
  else if fs.islink p || fs.resolvesToFile p then
    { fs with entries := fs.entries.filter (fun e => !(e.1 == p)) }
  else if fs.isdir p then
    { fs with entries :=
        fs.entries.filter (fun e => !(e.1 == p || (p ++ "/").toList.isPrefixOf e.1.toList)) }
  else fs

/-- Embedding of `utils.ensure_dir` (`os.makedirs(path, exist_ok=True)`): create
the directory when the path is absent, otherwise leave the filesystem alone.
(Intermediate parents are elided: the exporter only ever materializes into
directories it has itself ensured.) -/
def ensure_dir (fs : FS) (p : String) : FS :=
  if (fs.lookup p).isSome then fs
  else { entries := dictInsert fs.entries p (.dir fs.baseDev fs.nextIno),
         nextIno := fs.nextIno + 1, baseDev := fs.baseDev }

/-- `os.link src dst`: hardlink to the file `src` resolves to. -/
def fs_link (fs : FS) (src dst : String) : Option FS :=
  match fs.stat src with
  | some (d, i) => some { fs with entries := dictInsert fs.entries dst (.file d i) }
  | none => none

/-- `shutil.copy2 src dst`: a fresh file on the export device. -/
def fs_copy (fs : FS) (src dst : String) : Option FS :=
  match fs.stat src with
  | some _ => some { entries := dictInsert fs.entries dst (.file fs.baseDev fs.nextIno),
                     nextIno := fs.nextIno + 1, baseDev := fs.baseDev }
  | none => none

/-- `os.symlink src dst`. -/
def fs_symlink (fs : FS) (src dst : String) : FS :=
  { fs with entries := dictInsert fs.entries dst (.symlink src) }

/-- Embedding of `exporter._link_or_copy`.  `none` models a raised `OSError`
(caught by the caller); the `String` is the reported mode actually used. -/
def link_or_copy (fs : FS) (src dst mode export_root : String) : Option (FS × String) :=
  if fs.lexists dst then some (fs, "exists")
  else
    let mode1 := if mode = "hardlink" ∧ ¬ same_filesystem fs src export_root
      then "copy" else mode
    if mode1 = "hardlink" then (fs_link fs src dst).map (fun f => (f, "hardlink"))
    else if mode1 = "copy" then (fs_copy fs src dst).map (fun f => (f, "copy"))
    else some (fs_symlink fs src dst, "symlink")

/-! ## Export ledger ("Jellyfin Export Map") -/

structure MapEntry where
  library_name : String
  src_path : String
  export_path : String
  export_type : String
  status : String
  last_exported_on : Nat
  last_error : Option String
deriving DecidableEq, Repr

abbrev Ledger := List (String × MapEntry)

/-- Embedding of `exporter._upsert_map`: create or fully overwrite the single
entry keyed by the source identifier, stamping `now`. -/
def upsert_map (led : Ledger) (now : Nat) (entity library src dst etype status : String)
    (err : Option String) : Ledger :=
  dictInsert led entity ⟨library, src, dst, etype, status, now, err⟩

/-- Embedding of `exporter._get_map`. -/
def get_map (led : Ledger) (entity : String) : Option MapEntry := List.lookup entity led

/-! ## The reconciler (`export_entity`, `export_subtree`, `remove_export`) -/

structure Config where
  library_name : String
  library_root_entity : String
  export_root : String
  export_subdir : String
  link_mode : String
  include_images : Bool
  allowed_exts : Option (List String)
deriving DecidableEq, Repr

structure World where
  fs : FS
  ledger : Ledger
deriving DecidableEq, Repr

/-- The effective video-extension set: the caller-supplied set when truthy
(non-`None`, non-empty), the built-in default otherwise (`allowed_exts or
DEFAULT_VIDEO_EXTS`). -/
def videoSet (cfg : Config) : List String :=
  match cfg.allowed_exts with
  | some l => if l.isEmpty then DEFAULT_VIDEO_EXTS else l
  | none => DEFAULT_VIDEO_EXTS

/-- Tail of the file branch of `export_entity` after the move/rename handling:
collision check against the desired destination, then link/copy and ledger upsert. -/
def export_file_finish (cfg : Config) (now : Nat) (entity src dst : String)
    (fs : FS) (led : Ledger) : World :=
  let fs1 := ensure_dir fs (dirname dst)
  match link_or_copy fs1 src dst cfg.link_mode cfg.export_root with
  | some (fs2, _) =>
    ⟨fs2, upsert_map led now entity cfg.library_name src dst "file" "exported" none⟩
  | none =>
    ⟨fs1, upsert_map led now entity cfg.library_name src dst "file" "error" (some "OSError")⟩

def export_file_collision (cfg : Config) (now : Nat) (entity src desired_dst : String)
    (fs : FS) (led : Ledger) : World :=
  if fs.pexists desired_dst then
    if cfg.link_mode = "hardlink" ∧ same_inode fs src desired_dst then
      ⟨fs, upsert_map led now entity cfg.library_name src desired_dst "file" "exported" none⟩
    else
      let pr := pathSplitExt desired_dst
      export_file_finish cfg now entity src (pr.1 ++ "__" ++ entity ++ pr.2) fs led
  else export_file_finish cfg now entity src desired_dst fs led

/-- Embedding of `exporter.export_entity` (the live definition at line 258, not
the commented-out legacy variant).  A catalog lookup miss would raise in the
original and is modelled as a no-op; every other control path is translated
branch for branch.  `now` is the value `frappe.utils.now_datetime()` returns
during this invocation. -/
def export_entity (env : EntEnv) (cache : List (String × CacheEntry)) (cfg : Config)
    (now : Nat) (entity : String) (w : World) : World :=
  match List.lookup entity env with
  | none => w
  | some ent =>
    if ent.trashed_on.isSome ∨ ent.is_active ≠ 1 then w
    else
      let export_base := pjoin cfg.export_root cfg.export_subdir
      let fs0 := ensure_dir w.fs export_base
      let look := entity_look cache env
      let fuel := cache.length + env.length + 1
      if ent.is_group then
        match build_rel_parts look fuel entity cfg.library_root_entity with
        | none =>
          let fs1 :=
            match get_map w.ledger entity with
            | some m => if m.export_path ≠ "" then remove_path_safely fs0 m.export_path
                        else fs0
            | none => fs0
          ⟨fs1, upsert_map w.ledger now entity cfg.library_name "" "" "folder" "skipped"
            (some "Invalid Ancestor")⟩
        | some rel_parts =>
          let folder_dst := if rel_parts.isEmpty then export_base
                            else pjoinParts export_base rel_parts
          let fs1 := ensure_dir fs0 folder_dst
          let fs2 :=
            match get_map w.ledger entity with
            | some m =>
              if m.export_path ≠ "" ∧ m.export_path ≠ folder_dst then
                remove_path_safely fs1 m.export_path
              else fs1
            | none => fs1
          ⟨fs2, upsert_map w.ledger now entity cfg.library_name "" folder_dst "folder"
            "exported" none⟩
      else
        let src := strTrim ent.path
        if src = "" ∨ ¬ fs0.pexists src then
          ⟨fs0, upsert_map w.ledger now entity cfg.library_name src "" "file" "error"
            (some "Missing src path")⟩
        else
          let ext := split_ext ent.title ent.file_ext
          let is_video := ext ∈ videoSet cfg
          let is_sub := ext ∈ DEFAULT_SUB_EXTS
          let is_img := cfg.include_images ∧ ext ∈ DEFAULT_IMG_EXTS
          if ¬ (is_video ∨ is_sub ∨ is_img) then
            ⟨fs0, upsert_map w.ledger now entity cfg.library_name src "" "file" "skipped"
              none⟩
          else
            match build_rel_parts look fuel entity cfg.library_root_entity with
            | none =>
              let fs1 :=
                match get_map w.ledger entity with
                | some m => if m.export_path ≠ "" then remove_path_safely fs0 m.export_path
                            else fs0
                | none => fs0
              ⟨fs1, upsert_map w.ledger now entity cfg.library_name src "" "file" "skipped"
                (some "Invalid Ancestor")⟩
            | some rel_parts0 =>
              let rel_parts := if rel_parts0.isEmpty then [safe_name ent.title] else rel_parts0
              let desired_dst := pjoinParts export_base rel_parts
              let fs1 := ensure_dir fs0 (dirname desired_dst)
              match get_map w.ledger entity with
              | some m =>
                if m.export_path ≠ "" then
                  let old_dst := strTrim m.export_path
                  if old_dst = desired_dst ∧ fs1.pexists old_dst ∧
                      (cfg.link_mode ≠ "hardlink" ∨ same_inode fs1 src old_dst) then
                    ⟨fs1, w.ledger⟩
                  else
                    let fs2 := if old_dst ≠ "" ∧ old_dst ≠ desired_dst ∧ fs1.pexists old_dst
                      then remove_path_safely fs1 old_dst else fs1
                    export_file_collision cfg now entity src desired_dst fs2 w.ledger
                else export_file_collision cfg now entity src desired_dst fs1 w.ledger
              | none => export_file_collision cfg now entity src desired_dst fs1 w.ledger

/-! ## Tree snapshot cache, descendant iteration, subtree export -/

def oGT (x : Option Int) (b : Int) : Bool :=
  match x with
  | some v => b < v
  | none => false

def oLT (x : Option Int) (b : Int) : Bool :=
  match x with
  | some v => v < b
  | none => false

def oGE (x : Option Int) (b : Int) : Bool :=
  match x with
  | some v => b ≤ v
  | none => false

def oLE (x : Option Int) (b : Int) : Bool :=
  match x with
  | some v => v ≤ b
  | none => false

def toCacheEntry (n : String) (e : EntityInfo) : CacheEntry :=
  ⟨e.title, e.parent_drive_entity, e.is_active, e.trashed_on, n⟩

/-- Embedding of `exporter.build_path_cache`: the root row plus, when the root's
interval bounds are truthy, every row whose bounds lie strictly inside them —
with no filter on `is_active` or `trashed_on` (the range query has none). -/
def build_path_cache (env : EntEnv) (root : String) : List (String × CacheEntry) :=
  match List.lookup root env with
  | none => []
  | some r =>
    let base := [(root, toCacheEntry root r)]
    if truthyI r.lft ∧ truthyI r.rgt then
      base ++ (env.filter
          (fun e => oGT e.2.lft (r.lft.getD 0) && oLT e.2.rgt (r.rgt.getD 0))).map
        (fun e => (e.1, toCacheEntry e.1 e.2))
    else base

/-- Breadth-first fallback of `_iter_descendants`: children are the active rows
whose parent pointer is the dequeued identifier; trashed children are neither
yielded nor enqueued; group children are enqueued.  Fuel bounds the queue
processing (the Python loop does not terminate on a cyclic parent graph; on
acyclic catalogs the fuel `env.length + 1` passed below is never exhausted). -/
def bfs_iter (env : EntEnv) : Nat → List String → List (String × EntityInfo)
  | 0, _ => []
  | _ + 1, [] => []
  | fuel + 1, p :: rest =>
    let cs := env.filter
      (fun e => decide (e.2.parent_drive_entity = some p ∧ e.2.is_active = 1 ∧
        e.2.trashed_on = none))
    cs ++ bfs_iter env fuel (rest ++ (cs.filter (fun e => e.2.is_group)).map (·.1))

/-- Embedding of `exporter._iter_descendants` as the list of rows it yields:
when the root's bounds are truthy and `lft < rgt`, the active rows with bounds
inside the root's inclusive range, ordered by `lft` ascending, minus trashed
rows; otherwise the breadth-first walk by parent pointers. -/
def iter_descendants (env : EntEnv) (root : String) : List (String × EntityInfo) :=
  match List.lookup root env with
  | none => []
  | some r =>
    if truthyI r.lft ∧ truthyI r.rgt ∧ r.lft.getD 0 < r.rgt.getD 0 then
      ((env.filter (fun e => e.2.is_active == 1 &&
            oGE e.2.lft (r.lft.getD 0) && oLE e.2.rgt (r.rgt.getD 0))).insertionSort
          (fun a b => a.2.lft.getD 0 ≤ b.2.lft.getD 0)).filter
        (fun e => e.2.trashed_on == none)
    else bfs_iter env (env.length + 1) [root]

/-- The sequence of identifiers `export_subtree` passes to `export_entity`:
first the root itself, then each yielded row's `name`. -/
def subtree_calls (env : EntEnv) (root : String) : List String :=
  root :: (iter_descendants env root).map (·.1)

/-- Embedding of `exporter.export_subtree`: prime the cache, reconcile the root,
then reconcile every yielded row (the final cache clear has no observable
effect on the resulting world). -/
def export_subtree (env : EntEnv) (cfg : Config) (now : Nat) (root : String)
    (w : World) : World :=
  let cache := build_path_cache env root
  (subtree_calls env root).foldl (fun acc n => export_entity env cache cfg now n acc) w

/-! ## `remove_export` -/

/-- The tombstone update: status becomes `deleted` and the timestamp is
refreshed; no other field is touched. -/
def tombstone (now : Nat) (v : MapEntry) : MapEntry :=
  { v with status := "deleted", last_exported_on := now }

/-- Tombstone the ledger entries whose key satisfies `P`; no entry is removed
(`frappe.db.set_value` / the bulk `UPDATE`). -/
def markDeleted (now : Nat) (led : Ledger) (P : String → Prop) [DecidablePred P] : Ledger :=
  led.map (fun e => if P e.1 then (e.1, tombstone now e.2) else e)

/-- Embedding of `exporter.remove_export`: look the ledger entry up by source
identifier; physically remove the recorded export path; set the entry's status
to `deleted` and stamp the time; when the source row is a group with truthy
interval bounds, bulk-set status/timestamp on every ledger entry whose key is
a strict-interval descendant.  No entry is removed from the ledger. -/
def remove_export (env : EntEnv) (now : Nat) (entity : String) (w : World) : World :=
  match get_map w.ledger entity with
  | none => w
  | some m =>
    let dst := strTrim m.export_path
    let fs1 := if dst ≠ "" then remove_path_safely w.fs dst else w.fs
    let led1 := markDeleted now w.ledger (· = entity)
    let led2 :=
      match List.lookup entity env with
      | some ent =>
        if ent.is_group ∧ truthyI ent.lft ∧ truthyI ent.rgt then
          let descendants := (env.filter
            (fun e => oGT e.2.lft (ent.lft.getD 0) && oLT e.2.rgt (ent.rgt.getD 0))).map (·.1)
          markDeleted now led1 (· ∈ descendants)
        else led1
      | none => led1
    ⟨fs1, led2⟩

/-! ## Consistency guard (`utils.diagnose_and_heal_tree`) -/

/-- Children relation used by the guard's bulk adjacency: active rows whose
(truthy) parent pointer equals the given identifier. -/
def children_of (env : EntEnv) (q : String) : List String :=
  if q = "" then []
  else (env.filter
    (fun e => decide (e.2.is_active = 1 ∧ e.2.parent_drive_entity = some q))).map (·.1)

/-- Breadth-first descendant count over the parent-pointer adjacency. -/
def bfs_count (env : EntEnv) : Nat → List String → Nat
  | 0, _ => 0
  | _ + 1, [] => 0
  | fuel + 1, q :: rest =>
    let cs := children_of env q
    cs.length + bfs_count env fuel (rest ++ cs)

def count_descendants (env : EntEnv) (root : String) : Nat :=
  bfs_count env (env.length + 1) [root]

/-- Embedding of `utils.diagnose_and_heal_tree`, returning whether a full tree
rebuild is triggered.  Python floor division `//` is `Int.fdiv`. -/
def diagnose_and_heal_tree (env : EntEnv) (root : String) : Bool :=
  if root = "" then false
  else
    match List.lookup root env with
    | none => false
    | some r =>
      if ¬ truthyI r.lft ∨ ¬ truthyI r.rgt then true
      else
        let ns_count : Int := (r.rgt.getD 0 - r.lft.getD 0 - 1).fdiv 2
        ns_count ≠ (count_descendants env root : Int)

/-! ## Lemmas about `stripChars` and `safe_name` -/

lemma head?_dropWhile_false (p : Char → Bool) (l : List Char) {a : Char}
    (h : (l.dropWhile p).head? = some a) : p a = false := by
  have hd := List.head?_dropWhile_not p l
  rw [h] at hd
  exact hd

lemma dropWhile_eq_self_of_head (p : Char → Bool) (l : List Char)
    (h : ∀ a, l.head? = some a → p a = false) : l.dropWhile p = l := by
  cases l with
  | nil => rfl
  | cons a t => simp [List.dropWhile_cons, h a rfl]

/-- A list is trimmed when neither end carries a whitespace character. -/
def TrimmedL (l : List Char) : Prop :=
  (∀ a, l.head? = some a → isWS a = false) ∧ (∀ a, l.getLast? = some a → isWS a = false)

lemma stripChars_trimmed (l : List Char) : TrimmedL (stripChars l) := by
  unfold stripChars TrimmedL
  set m := l.dropWhile isWS with hm
  set k := m.reverse.dropWhile isWS with hk
  constructor
  · intro a h
    rw [List.head?_reverse] at h
    have hkne : k ≠ [] := by
      intro e
      rw [e] at h
      simp at h
    obtain ⟨t, ht⟩ : k <:+ m.reverse := hk ▸ List.dropWhile_suffix isWS
    have h2 : k.getLast? = m.reverse.getLast? := by
      rw [← ht]
      exact (List.getLast?_append_of_ne_nil t hkne).symm
    rw [h2, List.getLast?_reverse] at h
    exact head?_dropWhile_false isWS l h
  · intro a h
    rw [List.getLast?_reverse] at h
    exact head?_dropWhile_false isWS m.reverse h

lemma stripChars_eq_self_of_trimmed {l : List Char} (h : TrimmedL l) : stripChars l = l := by
  unfold stripChars
  rw [dropWhile_eq_self_of_head isWS l h.1]
  rw [dropWhile_eq_self_of_head isWS l.reverse
    (by intro a ha; rw [List.head?_reverse] at ha; exact h.2 a ha)]
  exact List.reverse_reverse l

lemma stripChars_idem (l : List Char) : stripChars (stripChars l) = stripChars l :=
  stripChars_eq_self_of_trimmed (stripChars_trimmed l)

lemma isWS_badToUnderscore (c : Char) : isWS (badToUnderscore c) = isWS c := by
  unfold badToUnderscore
  split
  · next h =>
    simp only [isBadChar, Bool.or_eq_true, decide_eq_true_eq] at h
    rcases h with ((((((((h | h) | h) | h) | h) | h) | h) | h) | h) <;> subst h <;> rfl
  · rfl

lemma badToUnderscore_idem (c : Char) : badToUnderscore (badToUnderscore c) = badToUnderscore c := by
  unfold badToUnderscore
  split
  · rfl
  · next h => simp [h]

lemma stripChars_map_bad (l : List Char) :
    stripChars (l.map badToUnderscore) = (stripChars l).map badToUnderscore := by
  have hws : (isWS ∘ badToUnderscore) = isWS := funext isWS_badToUnderscore
  unfold stripChars
  rw [List.dropWhile_map, hws, ← List.map_reverse, List.dropWhile_map, hws, ← List.map_reverse]

lemma mem_stripChars {b : Char} {l : List Char} (h : b ∈ stripChars l) : b ∈ l := by
  unfold stripChars at h
  rw [List.mem_reverse] at h
  have h1 := (List.dropWhile_suffix isWS).subset h
  rw [List.mem_reverse] at h1
  exact (List.dropWhile_suffix isWS).subset h1

/-- C10: the segment sanitizer `safe_name` is idempotent — re-sanitizing an
already-sanitized path segment yields the same segment, so a later
reconciliation pass never renames an export purely through sanitization. -/
theorem claim_C10_safe_name_idempotent (s : String) : safe_name (safe_name s) = safe_name s := by
  by_cases h : ((stripChars (s.toList.filter (fun c => c ≠ '\x00'))).map badToUnderscore).isEmpty
  · have hs : safe_name s = "untitled" := by
      unfold safe_name
      simp only [h, if_true]
    rw [hs]
    decide
  · set n := (stripChars (s.toList.filter (fun c => c ≠ '\x00'))).map badToUnderscore with hn
    have hs : safe_name s = String.mk n := by
      unfold safe_name
      rw [← hn, if_neg h]
    rw [hs]
    have htl : (String.mk n).toList = n := rfl
    have hnull : n.filter (fun c => c ≠ '\x00') = n := by
      apply List.filter_eq_self.mpr
      intro a ha
      rw [hn] at ha
      rcases List.mem_map.mp ha with ⟨b, hb, hab⟩
      have hbn : b ≠ '\x00' := by
        have := mem_stripChars hb
        rcases List.mem_filter.mp this with ⟨_, hb2⟩
        simpa using hb2
      subst hab
      unfold badToUnderscore
      split
      · decide
      · simpa using hbn
    have hstrip : stripChars n = n := by
      rw [hn, stripChars_map_bad, stripChars_idem]
    have hbad : n.map badToUnderscore = n := by
      rw [hn, List.map_map]
      congr 1
      exact funext badToUnderscore_idem
    unfold safe_name
    rw [htl, hnull, hstrip, hbad, if_neg h]

/-! ## Association-list toolbox -/

lemma lookup_cons_self {β : Type} (k : String) (v : β) (t : List (String × β)) :
    List.lookup k ((k, v) :: t) = some v := by
  simp [List.lookup]

lemma lookup_cons_ne {β : Type} {k q : String} (v : β) (t : List (String × β))
    (h : k ≠ q) : List.lookup q ((k, v) :: t) = List.lookup q t := by
  have hb : (q == k) = false := beq_eq_false_iff_ne.mpr (Ne.symm h)
  simp [List.lookup, hb]

lemma lookup_mem {β : Type} {k : String} {v : β} :
    ∀ {l : List (String × β)}, List.lookup k l = some v → (k, v) ∈ l := by
  intro l
  induction l with
  | nil => intro h; simp [List.lookup] at h
  | cons a t ih =>
    obtain ⟨ka, va⟩ := a
    intro h
    by_cases hk : ka = k
    · subst hk
      rw [lookup_cons_self, Option.some_inj] at h
      exact h ▸ List.mem_cons_self _ _
    · rw [lookup_cons_ne _ _ hk] at h
      exact List.mem_cons_of_mem _ (ih h)

lemma lookup_filter_key {β : Type} (g : String → Bool) {q : String} (hq : g q = true) :
    ∀ (l : List (String × β)),
      List.lookup q (l.filter (fun e => g e.1)) = List.lookup q l := by
  intro l
  induction l with
  | nil => rfl
  | cons a t ih =>
    obtain ⟨ka, va⟩ := a
    by_cases hk : ka = q
    · subst hk
      rw [List.filter_cons_of_pos (by simpa using hq), lookup_cons_self, lookup_cons_self]
    · cases hga : g ka with
      | true =>
        rw [List.filter_cons_of_pos (by simpa using hga), lookup_cons_ne _ _ hk,
          lookup_cons_ne _ _ hk, ih]
      | false =>
        rw [List.filter_cons_of_neg (by simpa using hga), lookup_cons_ne _ _ hk, ih]

lemma lookup_dictInsert_self {β : Type} (l : List (String × β)) (k : String) (v : β) :
    List.lookup k (dictInsert l k v) = some v := lookup_cons_self k v _

lemma lookup_dictInsert_ne {β : Type} (l : List (String × β)) {k q : String} (v : β)
    (h : k ≠ q) : List.lookup q (dictInsert l k v) = List.lookup q l := by
  unfold dictInsert
  rw [lookup_cons_ne _ _ h]
  exact lookup_filter_key (fun s => !(s == k)) (by simp [Ne.symm h]) l

lemma dictInsert_dictInsert {β : Type} (l : List (String × β)) (k : String) (a b : β) :
    dictInsert (dictInsert l k a) k b = dictInsert l k b := by
  unfold dictInsert
  rw [List.filter_cons_of_neg (by simp), List.filter_filter]
  congr 1
  apply List.filter_congr
  intro x _
  cases h : x.1 == k <;> simp [h]

lemma lookup_map_mark {β : Type} (P : String → Prop) [DecidablePred P] (f : β → β)
    (d : String) : ∀ (l : List (String × β)),
    List.lookup d (l.map (fun e => if P e.1 then (e.1, f e.2) else e)) =
      if P d then (List.lookup d l).map f else List.lookup d l := by
  intro l
  induction l with
  | nil => simp [List.lookup]
  | cons a t ih =>
    obtain ⟨ka, va⟩ := a
    by_cases hk : ka = d
    · subst hk
      by_cases hp : P ka
      · rw [List.map_cons, if_pos hp, lookup_cons_self, lookup_cons_self, if_pos hp,
          Option.map_some']
      · rw [List.map_cons, if_neg hp, lookup_cons_self, lookup_cons_self, if_neg hp]
    · by_cases hp : P ka
      · rw [List.map_cons, if_pos hp, lookup_cons_ne _ _ hk, lookup_cons_ne _ _ hk, ih]
      · rw [List.map_cons, if_neg hp, lookup_cons_ne _ _ hk, lookup_cons_ne _ _ hk, ih]

lemma eq_of_mem_of_lookup_nodup {β : Type} {k : String} {v r : β} :
    ∀ {l : List (String × β)}, (l.map Prod.fst).Nodup → (k, v) ∈ l →
      List.lookup k l = some r → v = r := by
  intro l
  induction l with
  | nil => intro _ hm; simp at hm
  | cons a t ih =>
    obtain ⟨ka, va⟩ := a
    intro hnd hm hl
    rcases List.mem_cons.mp hm with he | ht
    · have hk : ka = k := congrArg Prod.fst he.symm
      have hv : va = v := congrArg Prod.snd he.symm
      subst hk
      rw [lookup_cons_self, Option.some_inj] at hl
      rw [← hv, hl]
    · have hk : ka ≠ k := by
        intro he1
        have : k ∈ t.map Prod.fst := List.mem_map.mpr ⟨(k, v), ht, rfl⟩
        rw [List.map_cons, List.nodup_cons] at hnd
        exact hnd.1 (he1 ▸ this)
      rw [lookup_cons_ne _ _ hk] at hl
      rw [List.map_cons, List.nodup_cons] at hnd
      exact ih hnd.2 ht hl

/-! ## Claim C9: the consistency guard's rebuild trigger -/

/-- C9: for a root whose interval bounds are present (non-null, non-zero),
`diagnose_and_heal_tree` triggers a full rebuild exactly when the expected
descendant count `(rgt - lft - 1) // 2` differs from the actual count obtained
by breadth-first-counting the root's descendants over the bulk-loaded active
parent-pointer adjacency; when the two counts agree, no rebuild is triggered. -/
theorem claim_C9_rebuild_iff_count_mismatch (env : EntEnv) (root : String) (r : EntityInfo)
    (hroot : root ≠ "") (hlook : List.lookup root env = some r)
    (hl : truthyI r.lft = true) (hr : truthyI r.rgt = true) :
    diagnose_and_heal_tree env root = true ↔
      (r.rgt.getD 0 - r.lft.getD 0 - 1).fdiv 2 ≠ (count_descendants env root : Int) := by
  unfold diagnose_and_heal_tree
  rw [if_neg hroot, hlook]
  simp [hl, hr]

def envW9 : EntEnv :=
  [("R", ⟨"R", none, 1, none, true, "", none, some 1, some 4⟩),
   ("A", ⟨"A", some "R", 1, none, true, "", none, some 2, some 3⟩)]

theorem claim_C9_witness :
    diagnose_and_heal_tree envW9 "R" = true ↔
      ((some 4 : Option Int).getD 0 - (some 1 : Option Int).getD 0 - 1).fdiv 2 ≠
        (count_descendants envW9 "R" : Int) :=
  claim_C9_rebuild_iff_count_mismatch envW9 "R"
    ⟨"R", none, 1, none, true, "", none, some 1, some 4⟩
    (by decide) (by decide) (by decide) (by decide)

/-! ## Claim C7: `remove_export` tombstone semantics -/

lemma get_map_markDeleted (now : Nat) (led : Ledger) (P : String → Prop) [DecidablePred P]
    (d : String) :
    get_map (markDeleted now led P) d =
      if P d then (get_map led d).map (tombstone now) else get_map led d := by
  unfold markDeleted get_map
  exact lookup_map_mark P _ d led

/-- C7: `remove_export` sets the item's ledger entry to status `deleted` with a
fresh timestamp while leaving every other field (library, source path, export
path, kind) unchanged (`tombstone` semantics); it never removes a ledger entry;
and when the item is a group with truthy interval bounds it applies the same
tombstone update to every ledger entry of a strict-interval descendant. -/
theorem claim_C7_remove_export_tombstones (env : EntEnv) (now : Nat) (e : String)
    (w : World) (m : MapEntry) (hm : get_map w.ledger e = some m) :
    get_map (remove_export env now e w).ledger e = some (tombstone now m) ∧
    (∀ x, (get_map (remove_export env now e w).ledger x).isSome =
        (get_map w.ledger x).isSome) ∧
    (∀ ent, List.lookup e env = some ent → ent.is_group = true →
      truthyI ent.lft = true → truthyI ent.rgt = true →
      ∀ d dinfo md, List.lookup d env = some dinfo →
        oGT dinfo.lft (ent.lft.getD 0) = true → oLT dinfo.rgt (ent.rgt.getD 0) = true →
        get_map w.ledger d = some md →
        get_map (remove_export env now e w).ledger d = some (tombstone now md)) := by
  have h1 : get_map (markDeleted now w.ledger (· = e)) e = some (tombstone now m) := by
    rw [get_map_markDeleted, if_pos rfl, hm, Option.map_some']
  unfold remove_export
  rw [hm]
  refine ⟨?_, ?_, ?_⟩
  · cases henv : List.lookup e env with
    | none =>
      show get_map (markDeleted now w.ledger (· = e)) e = _
      exact h1
    | some ent =>
      by_cases hg : ent.is_group = true ∧ truthyI ent.lft = true ∧ truthyI ent.rgt = true
      · show get_map (if ent.is_group ∧ truthyI ent.lft ∧ truthyI ent.rgt then _ else _) e = _
        rw [if_pos hg, get_map_markDeleted]
        by_cases hd : e ∈ (env.filter (fun x => oGT x.2.lft (ent.lft.getD 0) &&
            oLT x.2.rgt (ent.rgt.getD 0))).map (·.1)
        · rw [if_pos hd, h1, Option.map_some']
          rfl
        · rw [if_neg hd]
          exact h1
      · show get_map (if ent.is_group ∧ truthyI ent.lft ∧ truthyI ent.rgt then _ else _) e = _
        rw [if_neg hg]
        exact h1
  · intro x
    have h2 : (get_map (markDeleted now w.ledger (· = e)) x).isSome =
        (get_map w.ledger x).isSome := by
      rw [get_map_markDeleted]
      by_cases hx : x = e
      · rw [if_pos hx]
        cases get_map w.ledger x <;> rfl
      · rw [if_neg hx]
    cases henv : List.lookup e env with
    | none =>
      show (get_map (markDeleted now w.ledger (· = e)) x).isSome = _
      exact h2
    | some ent =>
      by_cases hg : ent.is_group = true ∧ truthyI ent.lft = true ∧ truthyI ent.rgt = true
      · show (get_map (if ent.is_group ∧ truthyI ent.lft ∧ truthyI ent.rgt then _ else _)
          x).isSome = _
        rw [if_pos hg, get_map_markDeleted]
        by_cases hd : x ∈ (env.filter (fun y => oGT y.2.lft (ent.lft.getD 0) &&
            oLT y.2.rgt (ent.rgt.getD 0))).map (·.1)
        · rw [if_pos hd, ← h2]
          cases get_map (markDeleted now w.ledger (· = e)) x <;> rfl
        · rw [if_neg hd]
          exact h2
      · show (get_map (if ent.is_group ∧ truthyI ent.lft ∧ truthyI ent.rgt then _ else _)
          x).isSome = _
        rw [if_neg hg]
        exact h2
  · intro ent henv hgrp hlt hrt d dinfo md hd hlft hrgt hmd
    rw [henv]
    have hg : ent.is_group = true ∧ truthyI ent.lft = true ∧ truthyI ent.rgt = true :=
      ⟨hgrp, hlt, hrt⟩
    show get_map (if ent.is_group ∧ truthyI ent.lft ∧ truthyI ent.rgt then _ else _) d = _
    rw [if_pos hg]
    have hdm : d ∈ (env.filter (fun y => oGT y.2.lft (ent.lft.getD 0) &&
        oLT y.2.rgt (ent.rgt.getD 0))).map (·.1) := by
      refine List.mem_map.mpr ⟨(d, dinfo), ?_, rfl⟩
      refine List.mem_filter.mpr ⟨lookup_mem hd, ?_⟩
      simp [hlft, hrgt]
    show get_map (markDeleted now (markDeleted now w.ledger (· = e)) _) d = _
    rw [get_map_markDeleted, if_pos hdm, get_map_markDeleted]
    by_cases hde : d = e
    · rw [if_pos hde, hde, hm, Option.map_some', Option.map_some']
      have hmmd : m = md := by
        rw [hde] at hmd
        exact Option.some_inj.mp (hm.symm.trans hmd)
      rw [hmmd]
      rfl
    · rw [if_neg hde, hmd, Option.map_some']

def envW7 : EntEnv :=
  [("F", ⟨"F", none, 1, none, true, "", none, some 1, some 4⟩),
   ("C", ⟨"C", some "F", 1, none, false, "/s/C.mkv", some "mkv", some 2, some 3⟩)]

def wW7 : World :=
  ⟨⟨[("/exp/sub/F", .dir 0 1), ("/exp/sub/F/C.mkv", .file 0 2)], 10, 0⟩,
   [("F", ⟨"lib", "", "/exp/sub/F", "folder", "exported", 5, none⟩),
    ("C", ⟨"lib", "/s/C.mkv", "/exp/sub/F/C.mkv", "file", "exported", 5, none⟩)]⟩

theorem claim_C7_witness :
    get_map (remove_export envW7 9 "F" wW7).ledger "F" =
      some (tombstone 9 ⟨"lib", "", "/exp/sub/F", "folder", "exported", 5, none⟩) :=
  (claim_C7_remove_export_tombstones envW7 9 "F" wW7
    ⟨"lib", "", "/exp/sub/F", "folder", "exported", 5, none⟩ (by decide)).1

/-! ## Claim C8: content-type filter -/

/-- C8: an active, non-trashed file item with a readable source path whose
effective extension is in none of the allowed video set (`videoSet`), the
built-in subtitle set, or the built-in image set (the latter only counted when
`include_images` is enabled), is not exported: the filesystem is untouched
except for ensuring the shared export base directory (which does not depend on
the item), and the ledger entry is upserted with status `skipped` and an empty
export path. -/
theorem claim_C8_filtered_extensions_skipped (env : EntEnv)
    (cache : List (String × CacheEntry)) (cfg : Config) (now : Nat) (e : String)
    (w : World) (ent : EntityInfo)
    (hlook : List.lookup e env = some ent)
    (hact : ent.is_active = 1) (htr : ent.trashed_on = none)
    (hgrp : ent.is_group = false)
    (hsrc : strTrim ent.path ≠ "")
    (hpe : (ensure_dir w.fs (pjoin cfg.export_root cfg.export_subdir)).pexists
      (strTrim ent.path) = true)
    (hv : split_ext ent.title ent.file_ext ∉ videoSet cfg)
    (hs : split_ext ent.title ent.file_ext ∉ DEFAULT_SUB_EXTS)
    (hi : cfg.include_images = false ∨ split_ext ent.title ent.file_ext ∉ DEFAULT_IMG_EXTS) :
    export_entity env cache cfg now e w =
      ⟨ensure_dir w.fs (pjoin cfg.export_root cfg.export_subdir),
       upsert_map w.ledger now e cfg.library_name (strTrim ent.path) "" "file" "skipped"
         none⟩ := by
  have himg : ¬ (cfg.include_images = true ∧
      split_ext ent.title ent.file_ext ∈ DEFAULT_IMG_EXTS) := by
    rcases hi with hi | hi
    · intro h
      rw [hi] at h
      exact Bool.false_ne_true h.1
    · intro h
      exact hi h.2
  have hno : ¬ (split_ext ent.title ent.file_ext ∈ videoSet cfg ∨
      split_ext ent.title ent.file_ext ∈ DEFAULT_SUB_EXTS ∨
      (cfg.include_images = true ∧ split_ext ent.title ent.file_ext ∈ DEFAULT_IMG_EXTS)) :=
    fun h => h.elim hv (fun h2 => h2.elim hs himg)
  have h1 : ¬ (ent.trashed_on.isSome = true ∨ ent.is_active ≠ 1) := by simp [htr, hact]
  have h2 : ¬ (ent.is_group = true) := by simp [hgrp]
  have h3 : ¬ (strTrim ent.path = "" ∨
      ¬ ((ensure_dir w.fs (pjoin cfg.export_root cfg.export_subdir)).pexists
        (strTrim ent.path) = true)) := by simp [hsrc, hpe]
  simp only [export_entity, hlook]
  rw [if_neg h1, if_neg h2, if_neg h3, if_pos hno]

def envW8 : EntEnv :=
  [("T", ⟨"notes.txt", none, 1, none, false, "/s/notes.txt", some "txt", none, none⟩)]

def wW8 : World := ⟨⟨[("/s/notes.txt", .file 1 50)], 100, 0⟩, []⟩

def cfgW8 : Config := ⟨"lib", "R", "/exp", "sub", "hardlink", false, none⟩

theorem claim_C8_witness :
    export_entity envW8 [] cfgW8 7 "T" wW8 =
      ⟨ensure_dir wW8.fs (pjoin cfgW8.export_root cfgW8.export_subdir),
       upsert_map wW8.ledger 7 "T" cfgW8.library_name (strTrim "/s/notes.txt") "" "file"
         "skipped" none⟩ :=
  claim_C8_filtered_extensions_skipped envW8 [] cfgW8 7 "T" wW8
    ⟨"notes.txt", none, 1, none, false, "/s/notes.txt", some "txt", none, none⟩
    (by decide) (by decide) (by decide) (by decide) (by decide) (by decide)
    (by decide) (by decide) (Or.inl (by decide))

/-! ## Claim C6: invalid-ancestor cleanup -/

/-- C6: for an active, non-trashed item whose ancestor chain has become invalid
(`_build_rel_parts` returns `None`) and whose ledger entry records a non-empty
export path, the next `export_entity` call physically removes that stale path
and upserts the entry with status `skipped` and error `"Invalid Ancestor"`,
both in the folder case and in the file case (the latter provided the source
path is still readable and the extension still passes the content-type filter,
the conditions checked before the ancestor walk).  Both outcomes are plain
result states of the total function — no exception reaches the caller. -/
theorem claim_C6_invalid_ancestor_cleanup (env : EntEnv)
    (cache : List (String × CacheEntry)) (cfg : Config) (now : Nat) (e : String)
    (w : World) (ent : EntityInfo) (m : MapEntry)
    (hlook : List.lookup e env = some ent)
    (hact : ent.is_active = 1) (htr : ent.trashed_on = none)
    (hrel : build_rel_parts (entity_look cache env) (cache.length + env.length + 1) e
      cfg.library_root_entity = none)
    (hm : get_map w.ledger e = some m) (hmp : m.export_path ≠ "") :
    (ent.is_group = true →
      export_entity env cache cfg now e w =
        ⟨remove_path_safely (ensure_dir w.fs (pjoin cfg.export_root cfg.export_subdir))
            m.export_path,
         upsert_map w.ledger now e cfg.library_name "" "" "folder" "skipped"
           (some "Invalid Ancestor")⟩) ∧
    (ent.is_group = false → strTrim ent.path ≠ "" →
      (ensure_dir w.fs (pjoin cfg.export_root cfg.export_subdir)).pexists (strTrim ent.path)
        = true →
      (split_ext ent.title ent.file_ext ∈ videoSet cfg ∨
        split_ext ent.title ent.file_ext ∈ DEFAULT_SUB_EXTS ∨
        (cfg.include_images = true ∧ split_ext ent.title ent.file_ext ∈ DEFAULT_IMG_EXTS)) →
      export_entity env cache cfg now e w =
        ⟨remove_path_safely (ensure_dir w.fs (pjoin cfg.export_root cfg.export_subdir))
            m.export_path,
         upsert_map w.ledger now e cfg.library_name (strTrim ent.path) "" "file" "skipped"
           (some "Invalid Ancestor")⟩) := by
  have h1 : ¬ (ent.trashed_on.isSome = true ∨ ent.is_active ≠ 1) := by simp [htr, hact]
  constructor
  · intro hgrp
    have h2 : ent.is_group = true := hgrp
    simp only [export_entity, hlook]
    rw [if_neg h1, if_pos h2, hrel, hm]
    dsimp only
    rw [if_pos hmp]
  · intro hgrp hsrc hpe hext
    have h2 : ¬ (ent.is_group = true) := by simp [hgrp]
    have h3 : ¬ (strTrim ent.path = "" ∨
        ¬ ((ensure_dir w.fs (pjoin cfg.export_root cfg.export_subdir)).pexists
          (strTrim ent.path) = true)) := by simp [hsrc, hpe]
    have h4 : ¬ ¬ (split_ext ent.title ent.file_ext ∈ videoSet cfg ∨
        split_ext ent.title ent.file_ext ∈ DEFAULT_SUB_EXTS ∨
        (cfg.include_images = true ∧ split_ext ent.title ent.file_ext ∈ DEFAULT_IMG_EXTS)) :=
      fun h => h hext
    simp only [export_entity, hlook]
    rw [if_neg h1, if_neg h2, if_neg h3, if_neg h4, hrel, hm]
    dsimp only
    rw [if_pos hmp]

def envW6 : EntEnv :=
  [("P", ⟨"P", none, 1, some 44, true, "", none, none, none⟩),
   ("F", ⟨"F", some "P", 1, none, true, "", none, none, none⟩),
   ("M", ⟨"M.mkv", some "P", 1, none, false, "/s/M.mkv", some "mkv", none, none⟩)]

def wW6 : World :=
  ⟨⟨[("/s/M.mkv", .file 1 3), ("/exp/sub/P/F", .dir 0 4), ("/exp/sub/P/M.mkv", .file 0 5)],
    50, 0⟩,
   [("F", ⟨"lib", "", "/exp/sub/P/F", "folder", "exported", 4, none⟩),
    ("M", ⟨"lib", "/s/M.mkv", "/exp/sub/P/M.mkv", "file", "exported", 4, none⟩)]⟩

def cfgW6 : Config := ⟨"lib", "R", "/exp", "sub", "copy", false, none⟩

theorem claim_C6_witness :
    (export_entity envW6 [] cfgW6 8 "F" wW6 =
      ⟨remove_path_safely (ensure_dir wW6.fs (pjoin cfgW6.export_root cfgW6.export_subdir))
          "/exp/sub/P/F",
       upsert_map wW6.ledger 8 "F" cfgW6.library_name "" "" "folder" "skipped"
         (some "Invalid Ancestor")⟩) ∧
    (export_entity envW6 [] cfgW6 8 "M" wW6 =
      ⟨remove_path_safely (ensure_dir wW6.fs (pjoin cfgW6.export_root cfgW6.export_subdir))
          "/exp/sub/P/M.mkv",
       upsert_map wW6.ledger 8 "M" cfgW6.library_name (strTrim "/s/M.mkv") "" "file" "skipped"
         (some "Invalid Ancestor")⟩) :=
  ⟨(claim_C6_invalid_ancestor_cleanup envW6 [] cfgW6 8 "F" wW6
      ⟨"F", some "P", 1, none, true, "", none, none, none⟩
      ⟨"lib", "", "/exp/sub/P/F", "folder", "exported", 4, none⟩
      (by decide) (by decide) (by decide) (by decide) (by decide) (by decide)).1 (by decide),
   (claim_C6_invalid_ancestor_cleanup envW6 [] cfgW6 8 "M" wW6
      ⟨"M.mkv", some "P", 1, none, false, "/s/M.mkv", some "mkv", none, none⟩
      ⟨"lib", "/s/M.mkv", "/exp/sub/P/M.mkv", "file", "exported", 4, none⟩
      (by decide) (by decide) (by decide) (by decide) (by decide) (by decide)).2
    (by decide) (by decide) (by decide) (Or.inl (by decide))⟩

/-! ## Claim C2: the ancestor walk's invalidation and cycle behaviour -/

lemma build_rel_go_none_iff (look : String → Option PathInfo) (stop_at : String) :
    ∀ (fuel : Nat) (seen parts : List String) (cur : Option String),
      build_rel_go look stop_at fuel seen parts cur = none ↔
        walk_hits_invalid look stop_at fuel seen cur = true := by
  intro fuel
  induction fuel with
  | zero =>
    intro seen parts cur
    simp [build_rel_go, walk_hits_invalid]
  | succ f ih =>
    intro seen parts cur
    match cur with
    | none => simp [build_rel_go, walk_hits_invalid]
    | some c =>
      by_cases h1 : c = ""
      · simp [build_rel_go, walk_hits_invalid, h1]
      · by_cases h2 : c ∈ seen
        · simp [build_rel_go, walk_hits_invalid, h1, h2]
        · cases hl : look c with
          | none => simp [build_rel_go, walk_hits_invalid, h1, h2, hl]
          | some info =>
            by_cases h3 : info.is_active ≠ 1 ∨ info.trashed_on.isSome
            · simp [build_rel_go, walk_hits_invalid, h1, h2, hl, h3]
            · by_cases h4 : c = stop_at
              · simp only [build_rel_go, walk_hits_invalid, if_neg h1, if_neg h2, hl,
                  if_neg h3, if_pos h4]
                simp
              · simp only [build_rel_go, walk_hits_invalid, if_neg h1, if_neg h2, hl,
                  if_neg h3, if_neg h4]
                exact ih _ _ _

lemma walk_hits_invalid_eq_bad (look : String → Option PathInfo) (stop_at : String) :
    ∀ (fuel : Nat) (seen : List String) (cur : Option String),
      walk_misses look stop_at fuel seen cur = false →
      walk_hits_invalid look stop_at fuel seen cur =
        walk_hits_bad look stop_at fuel seen cur := by
  intro fuel
  induction fuel with
  | zero =>
    intro seen cur _
    simp [walk_hits_invalid, walk_hits_bad]
  | succ f ih =>
    intro seen cur hm
    match cur with
    | none => simp [walk_hits_invalid, walk_hits_bad]
    | some c =>
      by_cases h1 : c = ""
      · simp [walk_hits_invalid, walk_hits_bad, h1]
      · by_cases h2 : c ∈ seen
        · simp [walk_hits_invalid, walk_hits_bad, h1, h2]
        · cases hl : look c with
          | none =>
            exfalso
            simp [walk_misses, h1, h2, hl] at hm
          | some info =>
            by_cases h3 : info.is_active ≠ 1 ∨ info.trashed_on.isSome
            · simp [walk_hits_invalid, walk_hits_bad, h1, h2, hl, h3]
            · by_cases h4 : c = stop_at
              · simp only [walk_hits_invalid, walk_hits_bad, if_neg h1, if_neg h2, hl,
                  if_neg h3, if_pos h4]
              · simp only [walk_misses, if_neg h1, if_neg h2, hl, if_neg h3, if_neg h4] at hm
                simp only [walk_hits_invalid, walk_hits_bad, if_neg h1, if_neg h2, hl,
                  if_neg h3, if_neg h4]
                exact ih _ _ hm

/-- C2 (amended): on a walk that never reaches a missing identifier (a miss
would instead make `frappe.get_doc` raise `DoesNotExistError` — the
`if not info` guard in the source is unreachable), `_build_rel_parts` returns
INVALID (`none`) exactly when the walk from the item toward the stop node runs
into an inactive or trashed node before it stops; and when a cycle is detected
(the current identifier is already in `seen`), the walk exits and returns the
partial path accumulated so far — `some parts.reverse` — rather than INVALID. -/
theorem claim_C2_walk_invalidation (look : String → Option PathInfo) (stop_at : String) :
    (∀ (fuel : Nat) (entity : String),
      walk_misses look stop_at fuel [] (some entity) = false →
      (build_rel_parts look fuel entity stop_at = none ↔
        walk_hits_bad look stop_at fuel [] (some entity) = true)) ∧
    (∀ (fuel : Nat) (seen parts : List String) (c : String), c ∈ seen →
      build_rel_go look stop_at (fuel + 1) seen parts (some c) = some parts.reverse) := by
  constructor
  · intro fuel entity hm
    rw [build_rel_parts, build_rel_go_none_iff look stop_at fuel [] [] (some entity),
      walk_hits_invalid_eq_bad look stop_at fuel [] (some entity) hm]
  · intro fuel seen parts c hc
    by_cases h1 : c = ""
    · simp [build_rel_go, h1]
    · simp [build_rel_go, h1, hc]

def envC2 : EntEnv :=
  [("X", ⟨"X", some "Y", 1, none, true, "", none, none, none⟩),
   ("Y", ⟨"Y", some "X", 1, none, true, "", none, none, none⟩)]

/-- C2 counterexample: a two-node parent cycle of active, non-trashed folders.
The claim demands INVALID (`none`) on cycle detection, but `_build_rel_parts`
returns the partial path `["Y", "X"]` accumulated before the cycle closed. -/
theorem claim_C2_counterexample :
    build_rel_parts (entity_look [] envC2) 3 "X" "R" ≠ none ∧
    build_rel_parts (entity_look [] envC2) 3 "X" "R" = some ["Y", "X"] := by
  constructor
  · decide
  · decide

/-- A file `M` under a trashed folder `T`: the walk finds every node it visits
(no miss, so in the source no exception), hits the trashed node, and the
builder returns INVALID. -/
def envC2b : EntEnv :=
  [("M", ⟨"M.mkv", some "T", 1, none, false, "/s/m.mkv", some "mkv", none, none⟩),
   ("T", ⟨"T", some "R", 1, some 5, true, "", none, none, none⟩),
   ("R", ⟨"R", none, 1, none, true, "", none, none, none⟩)]

theorem claim_C2_witness :
    ((build_rel_parts (entity_look [] envC2b) 4 "M" "R" = none ↔
        walk_hits_bad (entity_look [] envC2b) "R" 4 [] (some "M") = true) ∧
      build_rel_go (entity_look [] envC2) "R" 1 ["A"] ["t"] (some "A") = some ["t"]) ∧
    walk_misses (entity_look [] envC2b) "R" 4 [] (some "M") = false ∧
    walk_hits_bad (entity_look [] envC2b) "R" 4 [] (some "M") = true ∧
    build_rel_parts (entity_look [] envC2b) 4 "M" "R" = none :=
  ⟨⟨(claim_C2_walk_invalidation (entity_look [] envC2b) "R").1 4 "M" (by decide),
    (claim_C2_walk_invalidation (entity_look [] envC2) "R").2 0 ["A"] ["t"] "A" (by decide)⟩,
   by decide, by decide, by decide⟩

/-! ## Claim C3: what `build_path_cache` holds -/

lemma lookup_map_keyed_filter {β : Type} (p : String × EntityInfo → Bool)
    (f : String → EntityInfo → β) {d : String} {v : EntityInfo} :
    ∀ {env : EntEnv}, List.lookup d env = some v → p (d, v) = true →
      List.lookup d ((env.filter p).map (fun e => (e.1, f e.1 e.2))) = some (f d v) := by
  intro env
  induction env with
  | nil => intro h _; simp [List.lookup] at h
  | cons a t ih =>
    obtain ⟨ka, va⟩ := a
    intro hd hp
    by_cases hk : ka = d
    · subst hk
      rw [lookup_cons_self, Option.some_inj] at hd
      subst hd
      rw [List.filter_cons_of_pos hp, List.map_cons, lookup_cons_self]
    · rw [lookup_cons_ne _ _ hk] at hd
      cases hpk : p (ka, va) with
      | true =>
        rw [List.filter_cons_of_pos hpk, List.map_cons, lookup_cons_ne _ _ hk]
        exact ih hd hp
      | false =>
        rw [List.filter_cons_of_neg (by simp [hpk])]
        exact ih hd hp

/-- C3 (amended): after `build_path_cache(root)` on a root with truthy interval
bounds, the cache holds the root itself and every row whose bounds lie strictly
inside the root's — with no filter on `trashed_on` or `is_active`, so trashed
descendants are present in the cache exactly like inactive non-trashed ones
(the range query of `build_path_cache` carries no status filter at all). -/
theorem claim_C3_cache_holds_all_range_rows (env : EntEnv) (root d : String)
    (r dinfo : EntityInfo)
    (hr : List.lookup root env = some r)
    (hlt : truthyI r.lft = true) (hrt : truthyI r.rgt = true)
    (hd : List.lookup d env = some dinfo)
    (hin : oGT dinfo.lft (r.lft.getD 0) = true)
    (hout : oLT dinfo.rgt (r.rgt.getD 0) = true) :
    List.lookup root (build_path_cache env root) = some (toCacheEntry root r) ∧
    (d ≠ root → List.lookup d (build_path_cache env root) = some (toCacheEntry d dinfo)) := by
  unfold build_path_cache
  rw [hr]
  dsimp only
  rw [if_pos ⟨hlt, hrt⟩, List.singleton_append]
  constructor
  · exact lookup_cons_self root (toCacheEntry root r) _
  · intro hne
    rw [lookup_cons_ne _ _ (Ne.symm hne)]
    exact lookup_map_keyed_filter _ toCacheEntry hd (by simp [hin, hout])

def envC3 : EntEnv :=
  [("R", ⟨"R", none, 1, none, true, "", none, some 1, some 4⟩),
   ("D", ⟨"D", some "R", 1, some 7, true, "", none, some 2, some 3⟩)]

/-- C3 counterexample: `D` is a trashed descendant (`trashed_on = some 7`)
inside the root's bounds, yet the cache contains an entry for it — the claim
asserts that trashed descendants have no cache entry. -/
theorem claim_C3_counterexample :
    (List.lookup "D" (build_path_cache envC3 "R")).isSome = true ∧
    (List.lookup "D" envC3).map (fun e => e.trashed_on) = some (some 7) := by
  constructor
  · decide
  · decide

theorem claim_C3_witness :
    List.lookup "R" (build_path_cache envC3 "R") =
        some (toCacheEntry "R" ⟨"R", none, 1, none, true, "", none, some 1, some 4⟩) ∧
      ("D" ≠ "R" → List.lookup "D" (build_path_cache envC3 "R") =
        some (toCacheEntry "D" ⟨"D", some "R", 1, some 7, true, "", none, some 2, some 3⟩)) :=
  claim_C3_cache_holds_all_range_rows envC3 "R" "D"
    ⟨"R", none, 1, none, true, "", none, some 1, some 4⟩
    ⟨"D", some "R", 1, some 7, true, "", none, some 2, some 3⟩
    (by decide) (by decide) (by decide) (by decide) (by decide) (by decide)

/-! ## Claim C4: the subtree iteration -/

lemma bfs_iter_split (env : EntEnv) :
    ∀ (fuel : Nat) (queue : List String) (pre : List (String × EntityInfo))
      (y : String × EntityInfo) (post : List (String × EntityInfo)),
      bfs_iter env fuel queue = pre ++ y :: post →
      y ∈ env ∧ y.2.is_active = 1 ∧ y.2.trashed_on = none ∧
        ∃ q, y.2.parent_drive_entity = some q ∧ (q ∈ queue ∨ q ∈ pre.map (·.1)) := by
  intro fuel
  induction fuel with
  | zero =>
    intro queue pre y post h
    rw [bfs_iter] at h
    exact absurd h.symm (List.append_ne_nil_of_right_ne_nil pre (List.cons_ne_nil y post))
  | succ f ih =>
    intro queue pre y post h
    cases queue with
    | nil =>
      rw [bfs_iter] at h
      exact absurd h.symm (List.append_ne_nil_of_right_ne_nil pre (List.cons_ne_nil y post))
    | cons p rest =>
      rw [bfs_iter] at h
      set cs := env.filter
        (fun e => decide (e.2.parent_drive_entity = some p ∧ e.2.is_active = 1 ∧
          e.2.trashed_on = none)) with hcs
      rcases List.append_eq_append_iff.mp h with ⟨t, hpre, hrec⟩ | ⟨c2, hcs2, hyp⟩
      · -- y lies in the recursive output, after the prefix t of it
        obtain ⟨henv, hact, htrash, q, hq, hqm⟩ := ih _ t y post hrec
        refine ⟨henv, hact, htrash, q, hq, ?_⟩
        rcases hqm with hq2 | hq2
        · rcases List.mem_append.mp hq2 with hq3 | hq3
          · exact Or.inl (List.mem_cons_of_mem p hq3)
          · refine Or.inr ?_
            rw [hpre, List.map_append]
            refine List.mem_append.mpr (Or.inl ?_)
            rcases List.mem_map.mp hq3 with ⟨x, hx, hxq⟩
            exact List.mem_map.mpr ⟨x, List.mem_of_mem_filter hx, hxq⟩
        · refine Or.inr ?_
          rw [hpre, List.map_append]
          exact List.mem_append.mpr (Or.inr hq2)
      · cases c2 with
        | nil =>
          rw [List.append_nil] at hcs2
          rw [List.nil_append] at hyp
          obtain ⟨henv, hact, htrash, q, hq, hqm⟩ := ih _ [] y post hyp.symm
          refine ⟨henv, hact, htrash, q, hq, ?_⟩
          rcases hqm with hq2 | hq2
          · rcases List.mem_append.mp hq2 with hq3 | hq3
            · exact Or.inl (List.mem_cons_of_mem p hq3)
            · refine Or.inr ?_
              rw [← hcs2]
              rcases List.mem_map.mp hq3 with ⟨x, hx, hxq⟩
              exact List.mem_map.mpr ⟨x, List.mem_of_mem_filter hx, hxq⟩
          · simp at hq2
        | cons y2 t2 =>
          have hy2 : y = y2 := (List.cons.injEq .. ▸ hyp).1
          have hycs : y ∈ cs := by
            rw [hcs2, hy2]
            exact List.mem_append.mpr (Or.inr (List.mem_cons_self y2 t2))
          rw [hcs] at hycs
          obtain ⟨henv, hpred⟩ := List.mem_filter.mp hycs
          rw [decide_eq_true_eq] at hpred
          exact ⟨henv, hpred.2.1, hpred.2.2, p, hpred.1, Or.inl (List.mem_cons_self p rest)⟩

lemma bfs_iter_mem (env : EntEnv) (fuel : Nat) (queue : List String)
    (y : String × EntityInfo) (hy : y ∈ bfs_iter env fuel queue) :
    y ∈ env ∧ y.2.is_active = 1 ∧ y.2.trashed_on = none ∧
      ∃ q, y.2.parent_drive_entity = some q := by
  obtain ⟨s, t, hst⟩ := List.append_of_mem hy
  obtain ⟨henv, hact, htrash, q, hq, _⟩ := bfs_iter_split env fuel queue s y t hst
  exact ⟨henv, hact, htrash, q, hq⟩

/-- C4 (amended): `export_subtree` reconciles the root first and then each row
yielded by `_iter_descendants`.  In the interval branch (truthy bounds with
`lft < rgt`) the yielded rows are exactly the active, non-trashed rows whose
bounds lie within the root's inclusive range, emitted in ascending-`lft` order
(so parents precede children whenever the nested-set index is well-formed) —
and this range is inclusive, so the root itself is yielded again and
reconciled a second time.  In the breadth-first fallback, every yielded row is
an active, non-trashed child of the root or of an earlier-yielded row, and the
root (whose parent pointer is null) is never re-yielded. -/
theorem claim_C4_iteration_structure (env : EntEnv) (root : String) (r : EntityInfo)
    (hr : List.lookup root env = some r) :
    subtree_calls env root = root :: (iter_descendants env root).map (·.1) ∧
    (∀ l rg, r.lft = some l → r.rgt = some rg → l ≠ 0 → rg ≠ 0 → l < rg →
      ((r.is_active = 1 → r.trashed_on = none → (root, r) ∈ iter_descendants env root) ∧
       (∀ p i, (p, i) ∈ iter_descendants env root ↔
         ((p, i) ∈ env ∧ i.is_active = 1 ∧ i.trashed_on = none ∧
           oGE i.lft l = true ∧ oLE i.rgt rg = true)) ∧
       (iter_descendants env root).Pairwise
         (fun a b => a.2.lft.getD 0 ≤ b.2.lft.getD 0))) ∧
    (¬ (truthyI r.lft = true ∧ truthyI r.rgt = true ∧ r.lft.getD 0 < r.rgt.getD 0) →
      ((∀ pre y post, iter_descendants env root = pre ++ y :: post →
         (y ∈ env ∧ y.2.is_active = 1 ∧ y.2.trashed_on = none ∧
           ∃ q, y.2.parent_drive_entity = some q ∧ (q = root ∨ q ∈ pre.map (·.1)))) ∧
       (r.parent_drive_entity = none → (env.map Prod.fst).Nodup →
         root ∉ (iter_descendants env root).map (·.1)))) := by
  refine ⟨rfl, ?_, ?_⟩
  · intro l rg hl hrg hl0 hrg0 hlr
    have hcond : truthyI r.lft = true ∧ truthyI r.rgt = true ∧
        r.lft.getD 0 < r.rgt.getD 0 := by
      rw [hl, hrg]
      refine ⟨by simpa [truthyI] using hl0, by simpa [truthyI] using hrg0, by simpa using hlr⟩
    have hiter : iter_descendants env root =
        ((env.filter (fun e => e.2.is_active == 1 &&
            oGE e.2.lft (r.lft.getD 0) && oLE e.2.rgt (r.rgt.getD 0))).insertionSort
          (fun a b => a.2.lft.getD 0 ≤ b.2.lft.getD 0)).filter
        (fun e => e.2.trashed_on == none) := by
      unfold iter_descendants
      rw [hr]
      dsimp only
      rw [if_pos hcond]
    have hgd1 : r.lft.getD 0 = l := by rw [hl]; rfl
    have hgd2 : r.rgt.getD 0 = rg := by rw [hrg]; rfl
    rw [hiter, hgd1, hgd2]
    refine ⟨?_, ?_, ?_⟩
    · intro hact htrash
      refine List.mem_filter.mpr ⟨?_, by simp [htrash]⟩
      refine ((List.perm_insertionSort _ _).mem_iff).mpr ?_
      refine List.mem_filter.mpr ⟨lookup_mem hr, ?_⟩
      have h1 : oGE r.lft l = true := by rw [hl]; simp [oGE]
      have h2 : oLE r.rgt rg = true := by rw [hrg]; simp [oLE]
      simp [hact, h1, h2]
    · intro p i
      constructor
      · intro hmem
        obtain ⟨hsort, htrash⟩ := List.mem_filter.mp hmem
        have henvf := ((List.perm_insertionSort _ _).mem_iff).mp hsort
        obtain ⟨henv, hpred⟩ := List.mem_filter.mp henvf
        simp only [Bool.and_eq_true, beq_iff_eq] at hpred htrash
        exact ⟨henv, hpred.1.1, htrash, hpred.1.2, hpred.2⟩
      · intro ⟨henv, hact, htrash, h1, h2⟩
        refine List.mem_filter.mpr ⟨?_, by simp [htrash]⟩
        refine ((List.perm_insertionSort _ _).mem_iff).mpr ?_
        exact List.mem_filter.mpr ⟨henv, by simp [hact, h1, h2]⟩
    · haveI ht1 : IsTotal (String × EntityInfo)
          (fun a b => a.2.lft.getD 0 ≤ b.2.lft.getD 0) :=
        ⟨fun a b => Int.le_total _ _⟩
      haveI ht2 : IsTrans (String × EntityInfo)
          (fun a b => a.2.lft.getD 0 ≤ b.2.lft.getD 0) :=
        ⟨fun _ _ _ h1 h2 => le_trans h1 h2⟩
      exact List.Pairwise.filter _ (List.sorted_insertionSort _ _)
  · intro hcond
    have hiter : iter_descendants env root = bfs_iter env (env.length + 1) [root] := by
      unfold iter_descendants
      rw [hr]
      dsimp only
      rw [if_neg hcond]
    constructor
    · intro pre y post hsplit
      rw [hiter] at hsplit
      obtain ⟨henv, hact, htrash, q, hq, hqm⟩ :=
        bfs_iter_split env (env.length + 1) [root] pre y post hsplit
      refine ⟨henv, hact, htrash, q, hq, ?_⟩
      rcases hqm with hq2 | hq2
      · exact Or.inl (List.mem_singleton.mp hq2)
      · exact Or.inr hq2
    · intro hpar hnd hmem
      rw [hiter] at hmem
      rcases List.mem_map.mp hmem with ⟨y, hy, hyroot⟩
      obtain ⟨henv, _, _, q, hq⟩ := bfs_iter_mem env _ _ y hy
      have hyr : y.2 = r := by
        refine eq_of_mem_of_lookup_nodup hnd ?_ hr
        rw [← hyroot]
        exact (show (y.1, y.2) = y from rfl) ▸ henv
      rw [hyr, hpar] at hq
      exact Option.noConfusion hq

def envC4 : EntEnv :=
  [("R", ⟨"R", none, 1, none, true, "", none, some 1, some 4⟩),
   ("A", ⟨"A", some "R", 1, none, true, "", none, some 2, some 3⟩)]

/-- C4 counterexample: with truthy bounds `lft = 1 < rgt = 4`, the interval
branch's inclusive filters (`lft >= root.lft`, `rgt <= root.rgt`) yield the
root row itself again, so `export_subtree` invokes `export_entity` twice on the
root — the claim asserts the iteration never yields the root a second time. -/
theorem claim_C4_counterexample :
    "R" ∈ (iter_descendants envC4 "R").map (·.1) ∧
    (subtree_calls envC4 "R").count "R" = 2 := by
  constructor
  · decide
  · decide

theorem claim_C4_witness :
    subtree_calls envC4 "R" = "R" :: (iter_descendants envC4 "R").map (·.1) ∧
    (("R", (⟨"R", none, 1, none, true, "", none, some 1, some 4⟩ : EntityInfo)) ∈
      iter_descendants envC4 "R") :=
  ⟨(claim_C4_iteration_structure envC4 "R"
      ⟨"R", none, 1, none, true, "", none, some 1, some 4⟩ (by decide)).1,
   (((claim_C4_iteration_structure envC4 "R"
      ⟨"R", none, 1, none, true, "", none, some 1, some 4⟩ (by decide)).2.1 1 4
      (by decide) (by decide) (by decide) (by decide) (by decide)).1 (by decide) (by decide))⟩

/-! ## Filesystem lemmas -/

/-- Removal of `p` can affect `q` only when `q` is `p` itself or lies below it. -/
def pathClobbers (p q : String) : Prop :=
  q = p ∨ (p ++ "/").toList.isPrefixOf q.toList

instance (p q : String) : Decidable (pathClobbers p q) := by
  unfold pathClobbers
  infer_instance

lemma ensure_dir_of_isSome {fs : FS} {p : String} (h : (fs.lookup p).isSome = true) :
    ensure_dir fs p = fs := by
  unfold ensure_dir
  rw [if_pos h]

lemma ensure_dir_lookup_self (fs : FS) (p : String) :
    ((ensure_dir fs p).lookup p).isSome = true := by
  unfold ensure_dir
  by_cases h : (fs.lookup p).isSome = true
  · rw [if_pos h]
    exact h
  · rw [if_neg h]
    show (List.lookup p (dictInsert fs.entries p _)).isSome = true
    rw [lookup_dictInsert_self]
    rfl

lemma ensure_dir_lookup_preserve {fs : FS} {q : String} {n : FNode} (p : String)
    (h : fs.lookup q = some n) : (ensure_dir fs p).lookup q = some n := by
  unfold ensure_dir
  by_cases hp : (fs.lookup p).isSome = true
  · rw [if_pos hp]
    exact h
  · rw [if_neg hp]
    by_cases hq : p = q
    · subst hq
      rw [h] at hp
      exact absurd rfl hp
    · show List.lookup q (dictInsert fs.entries p _) = some n
      rw [lookup_dictInsert_ne _ _ hq]
      exact h

lemma ensure_dir_isSome_preserve {fs : FS} {q : String} (p : String)
    (h : (fs.lookup q).isSome = true) : ((ensure_dir fs p).lookup q).isSome = true := by
  cases hn : fs.lookup q with
  | none => rw [hn] at h; exact absurd h (by simp)
  | some n => rw [ensure_dir_lookup_preserve p hn]; rfl

lemma remove_lookup_preserve {p q : String} {fs : FS} (h : ¬ pathClobbers p q) :
    (remove_path_safely fs p).lookup q = fs.lookup q := by
  have hq1 : ¬ q = p := fun he => h (Or.inl he)
  have hq2 : ((p ++ "/").toList.isPrefixOf q.toList) = false := by
    cases hpr : (p ++ "/").toList.isPrefixOf q.toList with
    | false => rfl
    | true => exact absurd (Or.inr hpr) h
  unfold remove_path_safely
  by_cases h0 : p = ""
  · rw [if_pos h0]
  · rw [if_neg h0]
    by_cases h1 : (fs.islink p || fs.resolvesToFile p) = true
    · rw [if_pos h1]
      show List.lookup q (fs.entries.filter (fun e => !(e.1 == p))) = _
      exact lookup_filter_key (fun s => !(s == p)) (by simp [hq1]) fs.entries
    · rw [if_neg h1]
      by_cases h2 : fs.isdir p = true
      · rw [if_pos h2]
        show List.lookup q (fs.entries.filter
          (fun e => !(e.1 == p || (p ++ "/").toList.isPrefixOf e.1.toList))) = _
        have hg : (fun s => !(s == p || (p ++ "/").toList.isPrefixOf s.toList)) q = true := by
          have hb : (q == p) = false := beq_eq_false_iff_ne.mpr hq1
          show (!(q == p || (p ++ "/").toList.isPrefixOf q.toList)) = true
          rw [hb, hq2]
          rfl
        exact lookup_filter_key
          (fun s => !(s == p || (p ++ "/").toList.isPrefixOf s.toList)) hg fs.entries
      · rw [if_neg h2]

lemma remove_isSome_preserve {p q : String} {fs : FS} (h : ¬ pathClobbers p q)
    (hq : (fs.lookup q).isSome = true) :
    ((remove_path_safely fs p).lookup q).isSome = true := by
  rw [remove_lookup_preserve h]
  exact hq

/-! ## Claim C1: idempotence of `export_entity` -/

/-- Evaluation of the folder branch when the ancestor chain is invalid. -/
lemma export_entity_folder_invalid (env : EntEnv) (cache : List (String × CacheEntry))
    (cfg : Config) (now : Nat) (e : String) (w : World) (ent : EntityInfo)
    (hlook : List.lookup e env = some ent)
    (hact : ent.is_active = 1) (htr : ent.trashed_on = none) (hgrp : ent.is_group = true)
    (hrel : build_rel_parts (entity_look cache env) (cache.length + env.length + 1) e
      cfg.library_root_entity = none) :
    export_entity env cache cfg now e w =
      ⟨(match get_map w.ledger e with
        | some m =>
          if m.export_path ≠ "" then
            remove_path_safely (ensure_dir w.fs (pjoin cfg.export_root cfg.export_subdir))
              m.export_path
          else ensure_dir w.fs (pjoin cfg.export_root cfg.export_subdir)
        | none => ensure_dir w.fs (pjoin cfg.export_root cfg.export_subdir)),
       upsert_map w.ledger now e cfg.library_name "" "" "folder" "skipped"
         (some "Invalid Ancestor")⟩ := by
  have h1 : ¬ (ent.trashed_on.isSome = true ∨ ent.is_active ≠ 1) := by simp [htr, hact]
  simp only [export_entity, hlook]
  rw [if_neg h1, if_pos (show ent.is_group = true from hgrp), hrel]

/-- Evaluation of the folder branch when the ancestor chain is valid. -/
lemma export_entity_folder_valid (env : EntEnv) (cache : List (String × CacheEntry))
    (cfg : Config) (now : Nat) (e : String) (w : World) (ent : EntityInfo)
    (ps : List String)
    (hlook : List.lookup e env = some ent)
    (hact : ent.is_active = 1) (htr : ent.trashed_on = none) (hgrp : ent.is_group = true)
    (hrel : build_rel_parts (entity_look cache env) (cache.length + env.length + 1) e
      cfg.library_root_entity = some ps) :
    export_entity env cache cfg now e w =
      (let base := pjoin cfg.export_root cfg.export_subdir
       let fdst := if ps.isEmpty then base else pjoinParts base ps
       ⟨(match get_map w.ledger e with
        | some m =>
          if m.export_path ≠ "" ∧ m.export_path ≠ fdst then
            remove_path_safely (ensure_dir (ensure_dir w.fs base) fdst) m.export_path
          else ensure_dir (ensure_dir w.fs base) fdst
        | none => ensure_dir (ensure_dir w.fs base) fdst),
       upsert_map w.ledger now e cfg.library_name "" fdst "folder" "exported" none⟩) := by
  have h1 : ¬ (ent.trashed_on.isSome = true ∨ ent.is_active ≠ 1) := by simp [htr, hact]
  simp only [export_entity, hlook]
  rw [if_neg h1, if_pos (show ent.is_group = true from hgrp), hrel]

/-- The folder destination `export_entity` computes for a folder item
(`none` when the ancestor chain is invalid). -/
def folder_dst (env : EntEnv) (cache : List (String × CacheEntry)) (cfg : Config)
    (e : String) : Option String :=
  match build_rel_parts (entity_look cache env) (cache.length + env.length + 1) e
    cfg.library_root_entity with
  | none => none
  | some ps => some (if ps.isEmpty then pjoin cfg.export_root cfg.export_subdir
      else pjoinParts (pjoin cfg.export_root cfg.export_subdir) ps)

/-- Folder idempotence: a second `export_entity` call right after a first one,
with the same arguments, leaves the filesystem as the first call left it and
rewrites the ledger entry with identical fields except the timestamp.  The
steadiness hypothesis rules out pathological prior ledger states whose
recorded export path lies above the export base or the computed folder
destination (removing such a path in the first call would tear down the
export area itself). -/
lemma export_entity_folder_idem (env : EntEnv) (cache : List (String × CacheEntry))
    (cfg : Config) (t1 t2 : Nat) (e : String) (w : World) (ent : EntityInfo)
    (hlook : List.lookup e env = some ent)
    (hact : ent.is_active = 1) (htr : ent.trashed_on = none) (hgrp : ent.is_group = true)
    (hsteady : ∀ m, get_map w.ledger e = some m →
      m.export_path = "" ∨
      folder_dst env cache cfg e = some m.export_path ∨
      (¬ pathClobbers m.export_path (pjoin cfg.export_root cfg.export_subdir) ∧
        ∀ fd, folder_dst env cache cfg e = some fd → ¬ pathClobbers m.export_path fd)) :
    (export_entity env cache cfg t2 e (export_entity env cache cfg t1 e w)).fs =
      (export_entity env cache cfg t1 e w).fs ∧
    ∃ m1, get_map (export_entity env cache cfg t1 e w).ledger e = some m1 ∧
      (export_entity env cache cfg t2 e (export_entity env cache cfg t1 e w)).ledger =
        dictInsert (export_entity env cache cfg t1 e w).ledger e
          { m1 with last_exported_on := t2 } := by
  cases hrel : build_rel_parts (entity_look cache env) (cache.length + env.length + 1) e
      cfg.library_root_entity with
  | none =>
    have hfd : folder_dst env cache cfg e = none := by
      unfold folder_dst
      rw [hrel]
    have e1 := export_entity_folder_invalid env cache cfg t1 e w ent hlook hact htr hgrp hrel
    have hbs : ((export_entity env cache cfg t1 e w).fs.lookup
        (pjoin cfg.export_root cfg.export_subdir)).isSome = true := by
      rw [e1]
      dsimp only
      cases hm0 : get_map w.ledger e with
      | none => exact ensure_dir_lookup_self w.fs _
      | some m =>
        dsimp only
        by_cases hmp : m.export_path ≠ ""
        · rw [if_pos hmp]
          rcases hsteady m hm0 with h | h | h
          · exact absurd h hmp
          · rw [hfd] at h
            exact Option.noConfusion h
          · exact remove_isSome_preserve h.1 (ensure_dir_lookup_self w.fs _)
        · rw [if_neg hmp]
          exact ensure_dir_lookup_self w.fs _
    have hled1 : (export_entity env cache cfg t1 e w).ledger =
        dictInsert w.ledger e
          ⟨cfg.library_name, "", "", "folder", "skipped", t1, some "Invalid Ancestor"⟩ := by
      rw [e1]
      rfl
    have hm1 : get_map (export_entity env cache cfg t1 e w).ledger e =
        some ⟨cfg.library_name, "", "", "folder", "skipped", t1, some "Invalid Ancestor"⟩ := by
      rw [hled1]
      exact lookup_dictInsert_self _ _ _
    have e2 := export_entity_folder_invalid env cache cfg t2 e
      (export_entity env cache cfg t1 e w) ent hlook hact htr hgrp hrel
    rw [e2]
    refine ⟨?_, ⟨_, hm1, ?_⟩⟩
    · dsimp only
      rw [hm1]
      dsimp only
      rw [if_neg (by simp)]
      exact ensure_dir_of_isSome hbs
    · dsimp only
      rfl
  | some ps =>
    have hfd : folder_dst env cache cfg e =
        some (if ps.isEmpty then pjoin cfg.export_root cfg.export_subdir
          else pjoinParts (pjoin cfg.export_root cfg.export_subdir) ps) := by
      unfold folder_dst
      rw [hrel]
    have e1 := export_entity_folder_valid env cache cfg t1 e w ent ps hlook hact htr hgrp hrel
    have hbs : ((export_entity env cache cfg t1 e w).fs.lookup
        (pjoin cfg.export_root cfg.export_subdir)).isSome = true := by
      rw [e1]
      dsimp only
      cases hm0 : get_map w.ledger e with
      | none =>
        exact ensure_dir_isSome_preserve _ (ensure_dir_lookup_self w.fs _)
      | some m =>
        dsimp only
        by_cases hmp : m.export_path ≠ "" ∧ m.export_path ≠
            (if ps.isEmpty then pjoin cfg.export_root cfg.export_subdir
              else pjoinParts (pjoin cfg.export_root cfg.export_subdir) ps)
        · rw [if_pos hmp]
          rcases hsteady m hm0 with h | h | h
          · exact absurd h hmp.1
          · rw [hfd, Option.some_inj] at h
            exact absurd h.symm hmp.2
          · exact remove_isSome_preserve h.1
              (ensure_dir_isSome_preserve _ (ensure_dir_lookup_self w.fs _))
        · rw [if_neg hmp]
          exact ensure_dir_isSome_preserve _ (ensure_dir_lookup_self w.fs _)
    have hfs : ((export_entity env cache cfg t1 e w).fs.lookup
        (if ps.isEmpty then pjoin cfg.export_root cfg.export_subdir
          else pjoinParts (pjoin cfg.export_root cfg.export_subdir) ps)).isSome = true := by
      rw [e1]
      dsimp only
      cases hm0 : get_map w.ledger e with
      | none => exact ensure_dir_lookup_self _ _
      | some m =>
        dsimp only
        by_cases hmp : m.export_path ≠ "" ∧ m.export_path ≠
            (if ps.isEmpty then pjoin cfg.export_root cfg.export_subdir
              else pjoinParts (pjoin cfg.export_root cfg.export_subdir) ps)
        · rw [if_pos hmp]
          rcases hsteady m hm0 with h | h | h
          · exact absurd h hmp.1
          · rw [hfd, Option.some_inj] at h
            exact absurd h.symm hmp.2
          · exact remove_isSome_preserve (h.2 _ hfd) (ensure_dir_lookup_self _ _)
        · rw [if_neg hmp]
          exact ensure_dir_lookup_self _ _
    have hled1 : (export_entity env cache cfg t1 e w).ledger =
        dictInsert w.ledger e
          ⟨cfg.library_name, "",
            (if ps.isEmpty then pjoin cfg.export_root cfg.export_subdir
              else pjoinParts (pjoin cfg.export_root cfg.export_subdir) ps),
            "folder", "exported", t1, none⟩ := by
      rw [e1]
      rfl
    have hm1 : get_map (export_entity env cache cfg t1 e w).ledger e =
        some ⟨cfg.library_name, "",
          (if ps.isEmpty then pjoin cfg.export_root cfg.export_subdir
            else pjoinParts (pjoin cfg.export_root cfg.export_subdir) ps),
          "folder", "exported", t1, none⟩ := by
      rw [hled1]
      exact lookup_dictInsert_self _ _ _
    have e2 := export_entity_folder_valid env cache cfg t2 e
      (export_entity env cache cfg t1 e w) ent ps hlook hact htr hgrp hrel
    rw [e2]
    refine ⟨?_, ⟨_, hm1, ?_⟩⟩
    · dsimp only
      rw [hm1]
      dsimp only
      rw [if_neg (by intro hc; exact hc.2 rfl)]
      rw [ensure_dir_of_isSome hbs]
      exact ensure_dir_of_isSome hfs
    · dsimp only
      rfl

/-- File no-op: when the ledger already records the desired destination, the
destination still exists, and (for hardlink mode) it shares the source's
device/inode, `export_entity` returns without touching filesystem or ledger
(the map-aware idempotency early return). -/
lemma export_entity_file_noop (env : EntEnv) (cache : List (String × CacheEntry))
    (cfg : Config) (now : Nat) (e : String) (w : World) (ent : EntityInfo) (m : MapEntry)
    (ps : List String)
    (hlook : List.lookup e env = some ent)
    (hact : ent.is_active = 1) (htr : ent.trashed_on = none) (hgrp : ent.is_group = false)
    (hbase : (w.fs.lookup (pjoin cfg.export_root cfg.export_subdir)).isSome = true)
    (hsrc : strTrim ent.path ≠ "")
    (hpe : w.fs.pexists (strTrim ent.path) = true)
    (hext : split_ext ent.title ent.file_ext ∈ videoSet cfg ∨
      split_ext ent.title ent.file_ext ∈ DEFAULT_SUB_EXTS ∨
      (cfg.include_images = true ∧ split_ext ent.title ent.file_ext ∈ DEFAULT_IMG_EXTS))
    (hrel : build_rel_parts (entity_look cache env) (cache.length + env.length + 1) e
      cfg.library_root_entity = some ps)
    (hdir : (w.fs.lookup (dirname (pjoinParts (pjoin cfg.export_root cfg.export_subdir)
      (if ps.isEmpty then [safe_name ent.title] else ps)))).isSome = true)
    (hm : get_map w.ledger e = some m)
    (hmp : m.export_path ≠ "")
    (hold : strTrim m.export_path = pjoinParts (pjoin cfg.export_root cfg.export_subdir)
      (if ps.isEmpty then [safe_name ent.title] else ps))
    (holdx : w.fs.pexists (pjoinParts (pjoin cfg.export_root cfg.export_subdir)
      (if ps.isEmpty then [safe_name ent.title] else ps)) = true)
    (hmode : cfg.link_mode ≠ "hardlink" ∨
      same_inode w.fs (strTrim ent.path)
        (pjoinParts (pjoin cfg.export_root cfg.export_subdir)
          (if ps.isEmpty then [safe_name ent.title] else ps)) = true) :
    export_entity env cache cfg now e w = w := by
  have hE : ensure_dir w.fs (pjoin cfg.export_root cfg.export_subdir) = w.fs :=
    ensure_dir_of_isSome hbase
  have h1 : ¬ (ent.trashed_on.isSome = true ∨ ent.is_active ≠ 1) := by simp [htr, hact]
  have h2 : ¬ (ent.is_group = true) := by simp [hgrp]
  have h3 : ¬ (strTrim ent.path = "" ∨
      ¬ ((ensure_dir w.fs (pjoin cfg.export_root cfg.export_subdir)).pexists
        (strTrim ent.path) = true)) := by
    rw [hE]
    simp [hsrc, hpe]
  have h4 : ¬ ¬ (split_ext ent.title ent.file_ext ∈ videoSet cfg ∨
      split_ext ent.title ent.file_ext ∈ DEFAULT_SUB_EXTS ∨
      (cfg.include_images = true ∧ split_ext ent.title ent.file_ext ∈ DEFAULT_IMG_EXTS)) :=
    fun h => h hext
  simp only [export_entity, hlook]
  rw [if_neg h1, if_neg h2, if_neg h3, if_neg h4, hrel]
  dsimp only
  rw [hE]
  rw [ensure_dir_of_isSome hdir]
  rw [hm]
  dsimp only
  rw [if_pos hmp]
  have hcond : strTrim m.export_path =
      pjoinParts (pjoin cfg.export_root cfg.export_subdir)
        (if ps.isEmpty then [safe_name ent.title] else ps) ∧
      w.fs.pexists (strTrim m.export_path) = true ∧
      (cfg.link_mode ≠ "hardlink" ∨
        same_inode w.fs (strTrim ent.path) (strTrim m.export_path) = true) := by
    refine ⟨hold, ?_, ?_⟩
    · rw [hold]
      exact holdx
    · rw [hold]
      exact hmode
  rw [if_pos hcond]

/-- C1 (amended): a second `export_entity` call right after a first one with
identical arguments and no intervening source change (a) leaves the filesystem
exactly as the first call left it and rewrites the ledger entry with identical
fields except the last-processed timestamp when the item is a folder (in a
steady prior ledger state, see `export_entity_folder_idem`), and (b) is a
complete no-op — filesystem and ledger entry, timestamp included — for a file
whose ledger entry already records the still-existing desired destination and,
in hardlink mode, the destination shares the source's storage identity.  The
original claim's "all fields unchanged" fails: folder (and skipped/error)
entries are re-stamped, and a hardlink-mode export that fell back to copy is
re-copied under a collision suffix by the second call. -/
theorem claim_C1_idempotence (env : EntEnv) (cache : List (String × CacheEntry))
    (cfg : Config) :
    (∀ (t1 t2 : Nat) (e : String) (w : World) (ent : EntityInfo),
      List.lookup e env = some ent →
      ent.is_active = 1 → ent.trashed_on = none → ent.is_group = true →
      (∀ m, get_map w.ledger e = some m →
        m.export_path = "" ∨
        folder_dst env cache cfg e = some m.export_path ∨
        (¬ pathClobbers m.export_path (pjoin cfg.export_root cfg.export_subdir) ∧
          ∀ fd, folder_dst env cache cfg e = some fd → ¬ pathClobbers m.export_path fd)) →
      ((export_entity env cache cfg t2 e (export_entity env cache cfg t1 e w)).fs =
        (export_entity env cache cfg t1 e w).fs ∧
      ∃ m1, get_map (export_entity env cache cfg t1 e w).ledger e = some m1 ∧
        (export_entity env cache cfg t2 e (export_entity env cache cfg t1 e w)).ledger =
          dictInsert (export_entity env cache cfg t1 e w).ledger e
            { m1 with last_exported_on := t2 })) ∧
    (∀ (now : Nat) (e : String) (w : World) (ent : EntityInfo) (m : MapEntry)
      (ps : List String),
      List.lookup e env = some ent →
      ent.is_active = 1 → ent.trashed_on = none → ent.is_group = false →
      (w.fs.lookup (pjoin cfg.export_root cfg.export_subdir)).isSome = true →
      strTrim ent.path ≠ "" →
      w.fs.pexists (strTrim ent.path) = true →
      (split_ext ent.title ent.file_ext ∈ videoSet cfg ∨
        split_ext ent.title ent.file_ext ∈ DEFAULT_SUB_EXTS ∨
        (cfg.include_images = true ∧ split_ext ent.title ent.file_ext ∈ DEFAULT_IMG_EXTS)) →
      build_rel_parts (entity_look cache env) (cache.length + env.length + 1) e
        cfg.library_root_entity = some ps →
      (w.fs.lookup (dirname (pjoinParts (pjoin cfg.export_root cfg.export_subdir)
        (if ps.isEmpty then [safe_name ent.title] else ps)))).isSome = true →
      get_map w.ledger e = some m →
      m.export_path ≠ "" →
      strTrim m.export_path = pjoinParts (pjoin cfg.export_root cfg.export_subdir)
        (if ps.isEmpty then [safe_name ent.title] else ps) →
      w.fs.pexists (pjoinParts (pjoin cfg.export_root cfg.export_subdir)
        (if ps.isEmpty then [safe_name ent.title] else ps)) = true →
      (cfg.link_mode ≠ "hardlink" ∨
        same_inode w.fs (strTrim ent.path)
          (pjoinParts (pjoin cfg.export_root cfg.export_subdir)
            (if ps.isEmpty then [safe_name ent.title] else ps)) = true) →
      export_entity env cache cfg now e w = w) := by
  constructor
  · intro t1 t2 e w ent hlook hact htr hgrp hsteady
    exact export_entity_folder_idem env cache cfg t1 t2 e w ent hlook hact htr hgrp hsteady
  · intro now e w ent m ps hlook hact htr hgrp hbase hsrc hpe hext hrel hdir hm hmp hold
      holdx hmode
    exact export_entity_file_noop env cache cfg now e w ent m ps hlook hact htr hgrp hbase
      hsrc hpe hext hrel hdir hm hmp hold holdx hmode

def envC1 : EntEnv :=
  [("R", ⟨"R", none, 1, none, true, "", none, some 1, some 6⟩),
   ("A", ⟨"A", some "R", 1, none, true, "", none, some 2, some 5⟩),
   ("M", ⟨"M.mkv", some "A", 1, none, false, "/files/M.mkv", some "mkv", some 3, some 4⟩)]

def cfgC1 : Config := ⟨"lib", "R", "/exp", "sub", "hardlink", false, none⟩

def wC1 : World := ⟨⟨[("/files/M.mkv", .file 1 100)], 1000, 0⟩, []⟩

/-- C1 counterexample: two identical back-to-back calls with no source change.
For the folder `A`, the second call rewrites the ledger entry with a fresh
last-processed timestamp (times 1 and 2), so the entry is not unchanged.  For
the file `M` under hardlink mode with a cross-device source (device 1 vs
export device 0), the first call falls back to copy; the second call sees a
destination that is not the source's inode, takes the collision branch and
creates an additional suffixed copy — the filesystem state differs. -/
theorem claim_C1_counterexample :
    get_map (export_entity envC1 [] cfgC1 2 "A"
        (export_entity envC1 [] cfgC1 1 "A" wC1)).ledger "A" ≠
      get_map (export_entity envC1 [] cfgC1 1 "A" wC1).ledger "A" ∧
    (export_entity envC1 [] cfgC1 2 "M"
        (export_entity envC1 [] cfgC1 1 "M" wC1)).fs ≠
      (export_entity envC1 [] cfgC1 1 "M" wC1).fs := by
  constructor
  · decide
  · decide

def cfgC1W : Config := ⟨"lib", "R", "/exp", "sub", "copy", false, none⟩

def wC1W : World :=
  ⟨⟨[("/files/M.mkv", .file 1 1), ("/exp/sub", .dir 0 2), ("/exp/sub/A", .dir 0 3),
     ("/exp/sub/A/M.mkv", .file 0 4)], 10, 0⟩,
   [("M", ⟨"lib", "/files/M.mkv", "/exp/sub/A/M.mkv", "file", "exported", 1, none⟩)]⟩

theorem claim_C1_witness :
    export_entity envC1 [] cfgC1W 5 "M" wC1W = wC1W :=
  (claim_C1_idempotence envC1 [] cfgC1W).2 5 "M" wC1W
    ⟨"M.mkv", some "A", 1, none, false, "/files/M.mkv", some "mkv", some 3, some 4⟩
    ⟨"lib", "/files/M.mkv", "/exp/sub/A/M.mkv", "file", "exported", 1, none⟩
    ["A", "M.mkv"]
    (by decide) (by decide) (by decide) (by decide) (by decide) (by decide) (by decide)
    (Or.inl (by decide)) (by decide) (by decide) (by decide) (by decide) (by decide)
    (by decide) (Or.inl (by decide))

/-! ## Claim C5: collision safety -/

lemma stat_of_lookup_file {fs : FS} {p : String} {d i : Nat}
    (h : fs.lookup p = some (.file d i)) : fs.stat p = some (d, i) := by
  unfold FS.stat FS.statNode
  rw [h]

lemma pexists_of_lookup_file {fs : FS} {p : String} {d i : Nat}
    (h : fs.lookup p = some (.file d i)) : fs.pexists p = true := by
  unfold FS.pexists
  rw [stat_of_lookup_file h]
  rfl

lemma pexists_false_of_lookup_none {fs : FS} {p : String}
    (h : fs.lookup p = none) : fs.pexists p = false := by
  unfold FS.pexists FS.stat FS.statNode
  rw [h]
  rfl

lemma entries_length_pos_of_lookup_some {fs : FS} {p : String} {n : FNode}
    (h : fs.lookup p = some n) : 1 ≤ fs.entries.length := by
  have hm := lookup_mem h
  cases he : fs.entries with
  | nil => rw [he] at hm; simp at hm
  | cons a t => simp [he]

lemma stat_of_symlink_to_file {fs : FS} {p t : String} {d i : Nat}
    (h : fs.lookup p = some (.symlink t)) (ht : fs.lookup t = some (.file d i)) :
    fs.stat p = some (d, i) := by
  unfold FS.stat
  obtain ⟨k, hk⟩ : ∃ k, fs.entries.length = k + 1 := by
    have := entries_length_pos_of_lookup_some h
    exact ⟨fs.entries.length - 1, by omega⟩
  rw [hk]
  show fs.statNode (k + 1 + 1) p = some (d, i)
  unfold FS.statNode
  rw [h]
  unfold FS.statNode
  rw [ht]

/-- Evaluation of a fresh file export: no prior ledger entry, free desired
destination, base and destination directories already materialized.  The
result records `exported` at the desired path; the filesystem gains exactly
one node there, whose identity is the source's (hardlink), a fresh inode on
the export device (copy, including the hardlink cross-device fallback), or a
symlink to the source (any other mode, which is only reachable when the mode
is not `hardlink`). -/
lemma export_entity_file_fresh (env : EntEnv) (cache : List (String × CacheEntry))
    (cfg : Config) (now : Nat) (e : String) (w : World) (ent : EntityInfo)
    (ps : List String)
    (hlook : List.lookup e env = some ent)
    (hact : ent.is_active = 1) (htr : ent.trashed_on = none) (hgrp : ent.is_group = false)
    (hbase : (w.fs.lookup (pjoin cfg.export_root cfg.export_subdir)).isSome = true)
    (hsrc : strTrim ent.path ≠ "")
    (hpe : w.fs.pexists (strTrim ent.path) = true)
    (hext : split_ext ent.title ent.file_ext ∈ videoSet cfg ∨
      split_ext ent.title ent.file_ext ∈ DEFAULT_SUB_EXTS ∨
      (cfg.include_images = true ∧ split_ext ent.title ent.file_ext ∈ DEFAULT_IMG_EXTS))
    (hrel : build_rel_parts (entity_look cache env) (cache.length + env.length + 1) e
      cfg.library_root_entity = some ps)
    (hdir : (w.fs.lookup (dirname (pjoinParts (pjoin cfg.export_root cfg.export_subdir)
      (if ps.isEmpty then [safe_name ent.title] else ps)))).isSome = true)
    (hm : get_map w.ledger e = none)
    (hDn : w.fs.lookup (pjoinParts (pjoin cfg.export_root cfg.export_subdir)
      (if ps.isEmpty then [safe_name ent.title] else ps)) = none) :
    ∃ fs', export_entity env cache cfg now e w =
        ⟨fs', upsert_map w.ledger now e cfg.library_name (strTrim ent.path)
          (pjoinParts (pjoin cfg.export_root cfg.export_subdir)
            (if ps.isEmpty then [safe_name ent.title] else ps)) "file" "exported" none⟩ ∧
      (∀ q, q ≠ pjoinParts (pjoin cfg.export_root cfg.export_subdir)
          (if ps.isEmpty then [safe_name ent.title] else ps) →
        fs'.lookup q = w.fs.lookup q) ∧
      fs'.baseDev = w.fs.baseDev ∧
      ((cfg.link_mode ≠ "hardlink" ∧
        fs'.lookup (pjoinParts (pjoin cfg.export_root cfg.export_subdir)
          (if ps.isEmpty then [safe_name ent.title] else ps)) =
          some (.symlink (strTrim ent.path))) ∨
       (∃ dv io, fs'.lookup (pjoinParts (pjoin cfg.export_root cfg.export_subdir)
          (if ps.isEmpty then [safe_name ent.title] else ps)) = some (.file dv io) ∧
         (w.fs.stat (strTrim ent.path) = some (dv, io) ∨
           (dv = w.fs.baseDev ∧ w.fs.nextIno ≤ io)))) := by
  have hE : ensure_dir w.fs (pjoin cfg.export_root cfg.export_subdir) = w.fs :=
    ensure_dir_of_isSome hbase
  have h1 : ¬ (ent.trashed_on.isSome = true ∨ ent.is_active ≠ 1) := by simp [htr, hact]
  have h2 : ¬ (ent.is_group = true) := by simp [hgrp]
  have h3 : ¬ (strTrim ent.path = "" ∨
      ¬ ((ensure_dir w.fs (pjoin cfg.export_root cfg.export_subdir)).pexists
        (strTrim ent.path) = true)) := by
    rw [hE]
    simp [hsrc, hpe]
  have h4 : ¬ ¬ (split_ext ent.title ent.file_ext ∈ videoSet cfg ∨
      split_ext ent.title ent.file_ext ∈ DEFAULT_SUB_EXTS ∨
      (cfg.include_images = true ∧ split_ext ent.title ent.file_ext ∈ DEFAULT_IMG_EXTS)) :=
    fun h => h hext
  have hpexF : ¬ (w.fs.pexists (pjoinParts (pjoin cfg.export_root cfg.export_subdir)
      (if ps.isEmpty then [safe_name ent.title] else ps)) = true) := by
    rw [pexists_false_of_lookup_none hDn]
    simp
  obtain ⟨sv, hsv⟩ : ∃ sv, w.fs.stat (strTrim ent.path) = some sv :=
    Option.isSome_iff_exists.mp hpe
  simp only [export_entity, hlook]
  rw [if_neg h1, if_neg h2, if_neg h3, if_neg h4, hrel]
  dsimp only
  rw [hE, ensure_dir_of_isSome hdir, hm]
  dsimp only
  unfold export_file_collision
  rw [if_neg hpexF]
  unfold export_file_finish
  rw [ensure_dir_of_isSome hdir]
  dsimp only
  have hlexF : ¬ (w.fs.lexists (pjoinParts (pjoin cfg.export_root cfg.export_subdir)
      (if ps.isEmpty then [safe_name ent.title] else ps)) = true) := by
    unfold FS.lexists
    rw [hDn]
    simp
  by_cases hhl : cfg.link_mode = "hardlink"
  · by_cases hsf : same_filesystem w.fs (strTrim ent.path) cfg.export_root = true
    · have hloc : link_or_copy w.fs (strTrim ent.path)
          (pjoinParts (pjoin cfg.export_root cfg.export_subdir)
            (if ps.isEmpty then [safe_name ent.title] else ps))
          cfg.link_mode cfg.export_root =
          some (⟨dictInsert w.fs.entries
            (pjoinParts (pjoin cfg.export_root cfg.export_subdir)
              (if ps.isEmpty then [safe_name ent.title] else ps)) (.file sv.1 sv.2),
            w.fs.nextIno, w.fs.baseDev⟩, "hardlink") := by
        unfold link_or_copy
        rw [if_neg hlexF]
        dsimp only
        rw [if_neg (show ¬ (cfg.link_mode = "hardlink" ∧
            ¬ same_filesystem w.fs (strTrim ent.path) cfg.export_root = true) from
            fun hc => hc.2 hsf)]
        rw [if_pos hhl]
        unfold fs_link
        rw [hsv]
        rfl
      rw [hloc]
      dsimp only
      refine ⟨_, rfl, ?_, rfl, Or.inr ⟨sv.1, sv.2, ?_, Or.inl (by rw [hsv])⟩⟩
      · intro q hq
        exact lookup_dictInsert_ne _ _ (fun hc => hq hc.symm)
      · show List.lookup _ (dictInsert _ _ _) = _
        rw [lookup_dictInsert_self]
    · have hloc : link_or_copy w.fs (strTrim ent.path)
          (pjoinParts (pjoin cfg.export_root cfg.export_subdir)
            (if ps.isEmpty then [safe_name ent.title] else ps))
          cfg.link_mode cfg.export_root =
          some (⟨dictInsert w.fs.entries
            (pjoinParts (pjoin cfg.export_root cfg.export_subdir)
              (if ps.isEmpty then [safe_name ent.title] else ps))
            (.file w.fs.baseDev w.fs.nextIno), w.fs.nextIno + 1, w.fs.baseDev⟩,
            "copy") := by
        unfold link_or_copy
        rw [if_neg hlexF]
        dsimp only
        rw [if_pos (show cfg.link_mode = "hardlink" ∧
          ¬ same_filesystem w.fs (strTrim ent.path) cfg.export_root = true from ⟨hhl, hsf⟩)]
        rw [if_neg (show ¬ (("copy" : String) = "hardlink") by decide)]
        rw [if_pos (show ("copy" : String) = "copy" from rfl)]
        unfold fs_copy
        rw [hsv]
        rfl
      rw [hloc]
      dsimp only
      refine ⟨_, rfl, ?_, rfl,
        Or.inr ⟨w.fs.baseDev, w.fs.nextIno, ?_, Or.inr ⟨rfl, le_refl _⟩⟩⟩
      · intro q hq
        exact lookup_dictInsert_ne _ _ (fun hc => hq hc.symm)
      · show List.lookup _ (dictInsert _ _ _) = _
        rw [lookup_dictInsert_self]
  · have hP : ¬ (cfg.link_mode = "hardlink" ∧
        ¬ same_filesystem w.fs (strTrim ent.path) cfg.export_root = true) :=
      fun hc => hhl hc.1
    by_cases hcp : cfg.link_mode = "copy"
    · have hloc : link_or_copy w.fs (strTrim ent.path)
          (pjoinParts (pjoin cfg.export_root cfg.export_subdir)
            (if ps.isEmpty then [safe_name ent.title] else ps))
          cfg.link_mode cfg.export_root =
          some (⟨dictInsert w.fs.entries
            (pjoinParts (pjoin cfg.export_root cfg.export_subdir)
              (if ps.isEmpty then [safe_name ent.title] else ps))
            (.file w.fs.baseDev w.fs.nextIno), w.fs.nextIno + 1, w.fs.baseDev⟩,
            "copy") := by
        unfold link_or_copy
        rw [if_neg hlexF]
        dsimp only
        rw [if_neg hP, if_neg hhl, if_pos hcp]
        unfold fs_copy
        rw [hsv]
        rfl
      rw [hloc]
      dsimp only
      refine ⟨_, rfl, ?_, rfl,
        Or.inr ⟨w.fs.baseDev, w.fs.nextIno, ?_, Or.inr ⟨rfl, le_refl _⟩⟩⟩
      · intro q hq
        exact lookup_dictInsert_ne _ _ (fun hc => hq hc.symm)
      · show List.lookup _ (dictInsert _ _ _) = _
        rw [lookup_dictInsert_self]
    · have hloc : link_or_copy w.fs (strTrim ent.path)
          (pjoinParts (pjoin cfg.export_root cfg.export_subdir)
            (if ps.isEmpty then [safe_name ent.title] else ps))
          cfg.link_mode cfg.export_root =
          some (⟨dictInsert w.fs.entries
            (pjoinParts (pjoin cfg.export_root cfg.export_subdir)
              (if ps.isEmpty then [safe_name ent.title] else ps))
            (.symlink (strTrim ent.path)),
            w.fs.nextIno, w.fs.baseDev⟩, "symlink") := by
        unfold link_or_copy
        rw [if_neg hlexF]
        dsimp only
        rw [if_neg hP, if_neg hhl, if_neg hcp]
        rfl
      rw [hloc]
      dsimp only
      refine ⟨_, rfl, ?_, rfl, Or.inl ⟨hhl, ?_⟩⟩
      · intro q hq
        exact lookup_dictInsert_ne _ _ (fun hc => hq hc.symm)
      · show List.lookup _ (dictInsert _ _ _) = _
        rw [lookup_dictInsert_self]

/-- Evaluation of the collision branch: no prior ledger entry, desired
destination occupied by something that is not the source's inode under
hardlink mode, suffixed destination free.  The item is exported at the
suffixed destination; nothing else on the filesystem changes. -/
lemma export_entity_file_collision_suffix (env : EntEnv)
    (cache : List (String × CacheEntry)) (cfg : Config) (now : Nat) (e : String)
    (w : World) (ent : EntityInfo) (ps : List String)
    (hlook : List.lookup e env = some ent)
    (hact : ent.is_active = 1) (htr : ent.trashed_on = none) (hgrp : ent.is_group = false)
    (hbase : (w.fs.lookup (pjoin cfg.export_root cfg.export_subdir)).isSome = true)
    (hsrc : strTrim ent.path ≠ "")
    (hpe : w.fs.pexists (strTrim ent.path) = true)
    (hext : split_ext ent.title ent.file_ext ∈ videoSet cfg ∨
      split_ext ent.title ent.file_ext ∈ DEFAULT_SUB_EXTS ∨
      (cfg.include_images = true ∧ split_ext ent.title ent.file_ext ∈ DEFAULT_IMG_EXTS))
    (hrel : build_rel_parts (entity_look cache env) (cache.length + env.length + 1) e
      cfg.library_root_entity = some ps)
    (hdir : (w.fs.lookup (dirname (pjoinParts (pjoin cfg.export_root cfg.export_subdir)
      (if ps.isEmpty then [safe_name ent.title] else ps)))).isSome = true)
    (hm : get_map w.ledger e = none)
    (hpex : w.fs.pexists (pjoinParts (pjoin cfg.export_root cfg.export_subdir)
      (if ps.isEmpty then [safe_name ent.title] else ps)) = true)
    (hguard : ¬ (cfg.link_mode = "hardlink" ∧
      same_inode w.fs (strTrim ent.path)
        (pjoinParts (pjoin cfg.export_root cfg.export_subdir)
          (if ps.isEmpty then [safe_name ent.title] else ps)) = true))
    (hdir2 : (w.fs.lookup (dirname
      ((pathSplitExt (pjoinParts (pjoin cfg.export_root cfg.export_subdir)
        (if ps.isEmpty then [safe_name ent.title] else ps))).1 ++ "__" ++ e ++
       (pathSplitExt (pjoinParts (pjoin cfg.export_root cfg.export_subdir)
        (if ps.isEmpty then [safe_name ent.title] else ps))).2))).isSome = true)
    (hlex2 : w.fs.lookup
      ((pathSplitExt (pjoinParts (pjoin cfg.export_root cfg.export_subdir)
        (if ps.isEmpty then [safe_name ent.title] else ps))).1 ++ "__" ++ e ++
       (pathSplitExt (pjoinParts (pjoin cfg.export_root cfg.export_subdir)
        (if ps.isEmpty then [safe_name ent.title] else ps))).2) = none) :
    ∃ fs', export_entity env cache cfg now e w =
        ⟨fs', upsert_map w.ledger now e cfg.library_name (strTrim ent.path)
          ((pathSplitExt (pjoinParts (pjoin cfg.export_root cfg.export_subdir)
            (if ps.isEmpty then [safe_name ent.title] else ps))).1 ++ "__" ++ e ++
           (pathSplitExt (pjoinParts (pjoin cfg.export_root cfg.export_subdir)
            (if ps.isEmpty then [safe_name ent.title] else ps))).2)
          "file" "exported" none⟩ ∧
      (fs'.lookup ((pathSplitExt (pjoinParts (pjoin cfg.export_root cfg.export_subdir)
          (if ps.isEmpty then [safe_name ent.title] else ps))).1 ++ "__" ++ e ++
         (pathSplitExt (pjoinParts (pjoin cfg.export_root cfg.export_subdir)
          (if ps.isEmpty then [safe_name ent.title] else ps))).2)).isSome = true ∧
      (∀ q, q ≠ (pathSplitExt (pjoinParts (pjoin cfg.export_root cfg.export_subdir)
          (if ps.isEmpty then [safe_name ent.title] else ps))).1 ++ "__" ++ e ++
         (pathSplitExt (pjoinParts (pjoin cfg.export_root cfg.export_subdir)
          (if ps.isEmpty then [safe_name ent.title] else ps))).2 →
        fs'.lookup q = w.fs.lookup q) := by
  have hE : ensure_dir w.fs (pjoin cfg.export_root cfg.export_subdir) = w.fs :=
    ensure_dir_of_isSome hbase
  have h1 : ¬ (ent.trashed_on.isSome = true ∨ ent.is_active ≠ 1) := by simp [htr, hact]
  have h2 : ¬ (ent.is_group = true) := by simp [hgrp]
  have h3 : ¬ (strTrim ent.path = "" ∨
      ¬ ((ensure_dir w.fs (pjoin cfg.export_root cfg.export_subdir)).pexists
        (strTrim ent.path) = true)) := by
    rw [hE]
    simp [hsrc, hpe]
  have h4 : ¬ ¬ (split_ext ent.title ent.file_ext ∈ videoSet cfg ∨
      split_ext ent.title ent.file_ext ∈ DEFAULT_SUB_EXTS ∨
      (cfg.include_images = true ∧ split_ext ent.title ent.file_ext ∈ DEFAULT_IMG_EXTS)) :=
    fun h => h hext
  obtain ⟨sv, hsv⟩ : ∃ sv, w.fs.stat (strTrim ent.path) = some sv :=
    Option.isSome_iff_exists.mp hpe
  simp only [export_entity, hlook]
  rw [if_neg h1, if_neg h2, if_neg h3, if_neg h4, hrel]
  dsimp only
  rw [hE, ensure_dir_of_isSome hdir, hm]
  dsimp only
  unfold export_file_collision
  rw [if_pos hpex, if_neg hguard]
  dsimp only
  unfold export_file_finish
  rw [ensure_dir_of_isSome hdir2]
  dsimp only
  have hlexF : ¬ (w.fs.lexists
      ((pathSplitExt (pjoinParts (pjoin cfg.export_root cfg.export_subdir)
        (if ps.isEmpty then [safe_name ent.title] else ps))).1 ++ "__" ++ e ++
       (pathSplitExt (pjoinParts (pjoin cfg.export_root cfg.export_subdir)
        (if ps.isEmpty then [safe_name ent.title] else ps))).2) = true) := by
    unfold FS.lexists
    rw [hlex2]
    simp
  by_cases hhl : cfg.link_mode = "hardlink"
  · by_cases hsf : same_filesystem w.fs (strTrim ent.path) cfg.export_root = true
    · have hloc : link_or_copy w.fs (strTrim ent.path)
          ((pathSplitExt (pjoinParts (pjoin cfg.export_root cfg.export_subdir)
            (if ps.isEmpty then [safe_name ent.title] else ps))).1 ++ "__" ++ e ++
           (pathSplitExt (pjoinParts (pjoin cfg.export_root cfg.export_subdir)
            (if ps.isEmpty then [safe_name ent.title] else ps))).2)
          cfg.link_mode cfg.export_root =
          some (⟨dictInsert w.fs.entries
            ((pathSplitExt (pjoinParts (pjoin cfg.export_root cfg.export_subdir)
              (if ps.isEmpty then [safe_name ent.title] else ps))).1 ++ "__" ++ e ++
             (pathSplitExt (pjoinParts (pjoin cfg.export_root cfg.export_subdir)
              (if ps.isEmpty then [safe_name ent.title] else ps))).2)
            (.file sv.1 sv.2),
            w.fs.nextIno, w.fs.baseDev⟩, "hardlink") := by
        unfold link_or_copy
        rw [if_neg hlexF]
        dsimp only
        rw [if_neg (show ¬ (cfg.link_mode = "hardlink" ∧
            ¬ same_filesystem w.fs (strTrim ent.path) cfg.export_root = true) from
            fun hc => hc.2 hsf)]
        rw [if_pos hhl]
        unfold fs_link
        rw [hsv]
        rfl
      rw [hloc]
      dsimp only
      refine ⟨_, rfl, ?_, ?_⟩
      · show (List.lookup _ (dictInsert _ _ _)).isSome = true
        rw [lookup_dictInsert_self]
        rfl
      · intro q hq
        exact lookup_dictInsert_ne _ _ (fun hc => hq hc.symm)
    · have hloc : link_or_copy w.fs (strTrim ent.path)
          ((pathSplitExt (pjoinParts (pjoin cfg.export_root cfg.export_subdir)
            (if ps.isEmpty then [safe_name ent.title] else ps))).1 ++ "__" ++ e ++
           (pathSplitExt (pjoinParts (pjoin cfg.export_root cfg.export_subdir)
            (if ps.isEmpty then [safe_name ent.title] else ps))).2)
          cfg.link_mode cfg.export_root =
          some (⟨dictInsert w.fs.entries
            ((pathSplitExt (pjoinParts (pjoin cfg.export_root cfg.export_subdir)
              (if ps.isEmpty then [safe_name ent.title] else ps))).1 ++ "__" ++ e ++
             (pathSplitExt (pjoinParts (pjoin cfg.export_root cfg.export_subdir)
              (if ps.isEmpty then [safe_name ent.title] else ps))).2)
            (.file w.fs.baseDev w.fs.nextIno),
            w.fs.nextIno + 1, w.fs.baseDev⟩, "copy") := by
        unfold link_or_copy
        rw [if_neg hlexF]
        dsimp only
        rw [if_pos (show cfg.link_mode = "hardlink" ∧
          ¬ same_filesystem w.fs (strTrim ent.path) cfg.export_root = true from ⟨hhl, hsf⟩)]
        rw [if_neg (show ¬ (("copy" : String) = "hardlink") by decide)]
        rw [if_pos (show ("copy" : String) = "copy" from rfl)]
        unfold fs_copy
        rw [hsv]
        rfl
      rw [hloc]
      dsimp only
      refine ⟨_, rfl, ?_, ?_⟩
      · show (List.lookup _ (dictInsert _ _ _)).isSome = true
        rw [lookup_dictInsert_self]
        rfl
      · intro q hq
        exact lookup_dictInsert_ne _ _ (fun hc => hq hc.symm)
  · have hP : ¬ (cfg.link_mode = "hardlink" ∧
        ¬ same_filesystem w.fs (strTrim ent.path) cfg.export_root = true) :=
      fun hc => hhl hc.1
    by_cases hcp : cfg.link_mode = "copy"
    · have hloc : link_or_copy w.fs (strTrim ent.path)
          ((pathSplitExt (pjoinParts (pjoin cfg.export_root cfg.export_subdir)
            (if ps.isEmpty then [safe_name ent.title] else ps))).1 ++ "__" ++ e ++
           (pathSplitExt (pjoinParts (pjoin cfg.export_root cfg.export_subdir)
            (if ps.isEmpty then [safe_name ent.title] else ps))).2)
          cfg.link_mode cfg.export_root =
          some (⟨dictInsert w.fs.entries
            ((pathSplitExt (pjoinParts (pjoin cfg.export_root cfg.export_subdir)
              (if ps.isEmpty then [safe_name ent.title] else ps))).1 ++ "__" ++ e ++
             (pathSplitExt (pjoinParts (pjoin cfg.export_root cfg.export_subdir)
              (if ps.isEmpty then [safe_name ent.title] else ps))).2)
            (.file w.fs.baseDev w.fs.nextIno),
            w.fs.nextIno + 1, w.fs.baseDev⟩, "copy") := by
        unfold link_or_copy
        rw [if_neg hlexF]
        dsimp only
        rw [if_neg hP, if_neg hhl, if_pos hcp]
        unfold fs_copy
        rw [hsv]
        rfl
      rw [hloc]
      dsimp only
      refine ⟨_, rfl, ?_, ?_⟩
      · show (List.lookup _ (dictInsert _ _ _)).isSome = true
        rw [lookup_dictInsert_self]
        rfl
      · intro q hq
        exact lookup_dictInsert_ne _ _ (fun hc => hq hc.symm)
    · have hloc : link_or_copy w.fs (strTrim ent.path)
          ((pathSplitExt (pjoinParts (pjoin cfg.export_root cfg.export_subdir)
            (if ps.isEmpty then [safe_name ent.title] else ps))).1 ++ "__" ++ e ++
           (pathSplitExt (pjoinParts (pjoin cfg.export_root cfg.export_subdir)
            (if ps.isEmpty then [safe_name ent.title] else ps))).2)
          cfg.link_mode cfg.export_root =
          some (⟨dictInsert w.fs.entries
            ((pathSplitExt (pjoinParts (pjoin cfg.export_root cfg.export_subdir)
              (if ps.isEmpty then [safe_name ent.title] else ps))).1 ++ "__" ++ e ++
             (pathSplitExt (pjoinParts (pjoin cfg.export_root cfg.export_subdir)
              (if ps.isEmpty then [safe_name ent.title] else ps))).2)
            (.symlink (strTrim ent.path)),
            w.fs.nextIno, w.fs.baseDev⟩, "symlink") := by
        unfold link_or_copy
        rw [if_neg hlexF]
        dsimp only
        rw [if_neg hP, if_neg hhl, if_neg hcp]
        rfl
      rw [hloc]
      dsimp only
      refine ⟨_, rfl, ?_, ?_⟩
      · show (List.lookup _ (dictInsert _ _ _)).isSome = true
        rw [lookup_dictInsert_self]
        rfl
      · intro q hq
        exact lookup_dictInsert_ne _ _ (fun hc => hq hc.symm)

lemma ne_of_lookup_none_isSome {fs : FS} {a b : String} (ha : fs.lookup a = none)
    (hb : (fs.lookup b).isSome = true) : a ≠ b := by
  intro h
  rw [← h, ha] at hb
  exact Bool.false_ne_true hb

/-- C5: two distinct source files whose desired destinations coincide at `D`
both end up exported when reconciled in sequence: the first occupies `D`, the
second is exported at the suffixed destination `D2` obtained by inserting its
identifier before the extension of `D`, and the second call does not touch the
node at `D`.  Hypotheses: both items are active, non-trashed, allowed-extension
files with readable, distinct-identity sources; neither has a ledger entry yet;
`D` and `D2` are initially free while the export base and the destination
directory already exist; the suffix does not change the destination directory. -/
theorem claim_C5_collision_both_exported (env : EntEnv)
    (cache : List (String × CacheEntry)) (cfg : Config) (t1 t2 : Nat) (e1 e2 : String)
    (w : World) (n1 n2 : EntityInfo) (p1 p2 : List String) (D D2 : String)
    (dv1 io1 dv2 io2 : Nat)
    (he : e1 ≠ e2)
    (h1 : List.lookup e1 env = some n1) (h2 : List.lookup e2 env = some n2)
    (ha1 : n1.is_active = 1) (ht1 : n1.trashed_on = none) (hg1 : n1.is_group = false)
    (ha2 : n2.is_active = 1) (ht2 : n2.trashed_on = none) (hg2 : n2.is_group = false)
    (hs1 : strTrim n1.path ≠ "") (hs2 : strTrim n2.path ≠ "")
    (hf1 : w.fs.lookup (strTrim n1.path) = some (.file dv1 io1))
    (hf2 : w.fs.lookup (strTrim n2.path) = some (.file dv2 io2))
    (hne : (dv1, io1) ≠ (dv2, io2))
    (hio2 : io2 < w.fs.nextIno)
    (hx1 : split_ext n1.title n1.file_ext ∈ videoSet cfg ∨
      split_ext n1.title n1.file_ext ∈ DEFAULT_SUB_EXTS ∨
      (cfg.include_images = true ∧ split_ext n1.title n1.file_ext ∈ DEFAULT_IMG_EXTS))
    (hx2 : split_ext n2.title n2.file_ext ∈ videoSet cfg ∨
      split_ext n2.title n2.file_ext ∈ DEFAULT_SUB_EXTS ∨
      (cfg.include_images = true ∧ split_ext n2.title n2.file_ext ∈ DEFAULT_IMG_EXTS))
    (hr1 : build_rel_parts (entity_look cache env) (cache.length + env.length + 1) e1
      cfg.library_root_entity = some p1)
    (hr2 : build_rel_parts (entity_look cache env) (cache.length + env.length + 1) e2
      cfg.library_root_entity = some p2)
    (hDdef : D = pjoinParts (pjoin cfg.export_root cfg.export_subdir)
      (if p1.isEmpty then [safe_name n1.title] else p1))
    (hDeq : pjoinParts (pjoin cfg.export_root cfg.export_subdir)
      (if p2.isEmpty then [safe_name n2.title] else p2) = D)
    (hD2def : D2 = (pathSplitExt D).1 ++ "__" ++ e2 ++ (pathSplitExt D).2)
    (hm1 : get_map w.ledger e1 = none) (hm2 : get_map w.ledger e2 = none)
    (hbase : (w.fs.lookup (pjoin cfg.export_root cfg.export_subdir)).isSome = true)
    (hdirD : (w.fs.lookup (dirname D)).isSome = true)
    (hDn : w.fs.lookup D = none)
    (hD2n : w.fs.lookup D2 = none)
    (hD2D : D2 ≠ D)
    (hD2dir : dirname D2 = dirname D) :
    get_map (export_entity env cache cfg t2 e2
        (export_entity env cache cfg t1 e1 w)).ledger e1 =
      some ⟨cfg.library_name, strTrim n1.path, D, "file", "exported", t1, none⟩ ∧
    get_map (export_entity env cache cfg t2 e2
        (export_entity env cache cfg t1 e1 w)).ledger e2 =
      some ⟨cfg.library_name, strTrim n2.path, D2, "file", "exported", t2, none⟩ ∧
    (export_entity env cache cfg t2 e2
        (export_entity env cache cfg t1 e1 w)).fs.lookup D =
      (export_entity env cache cfg t1 e1 w).fs.lookup D ∧
    ((export_entity env cache cfg t1 e1 w).fs.lookup D).isSome = true ∧
    ((export_entity env cache cfg t2 e2
        (export_entity env cache cfg t1 e1 w)).fs.lookup D2).isSome = true := by
  subst hDdef
  subst hD2def
  have hpe1 : w.fs.pexists (strTrim n1.path) = true := pexists_of_lookup_file hf1
  obtain ⟨fs1, he1, hpres1, hbd1, hnode1⟩ :=
    export_entity_file_fresh env cache cfg t1 e1 w n1 p1 h1 ha1 ht1 hg1 hbase hs1 hpe1
      hx1 hr1 hdirD hm1 hDn
  have hDbase : pjoinParts (pjoin cfg.export_root cfg.export_subdir)
      (if p1.isEmpty then [safe_name n1.title] else p1) ≠
      pjoin cfg.export_root cfg.export_subdir := ne_of_lookup_none_isSome hDn hbase
  have hDdir : pjoinParts (pjoin cfg.export_root cfg.export_subdir)
      (if p1.isEmpty then [safe_name n1.title] else p1) ≠
      dirname (pjoinParts (pjoin cfg.export_root cfg.export_subdir)
        (if p1.isEmpty then [safe_name n1.title] else p1)) :=
    ne_of_lookup_none_isSome hDn hdirD
  have hDsrc1 : pjoinParts (pjoin cfg.export_root cfg.export_subdir)
      (if p1.isEmpty then [safe_name n1.title] else p1) ≠ strTrim n1.path :=
    ne_of_lookup_none_isSome hDn (by rw [hf1]; rfl)
  have hDsrc2 : pjoinParts (pjoin cfg.export_root cfg.export_subdir)
      (if p1.isEmpty then [safe_name n1.title] else p1) ≠ strTrim n2.path :=
    ne_of_lookup_none_isSome hDn (by rw [hf2]; rfl)
  have hfs1src1 : fs1.lookup (strTrim n1.path) = some (.file dv1 io1) := by
    rw [hpres1 _ (Ne.symm hDsrc1)]
    exact hf1
  have hfs1src2 : fs1.lookup (strTrim n2.path) = some (.file dv2 io2) := by
    rw [hpres1 _ (Ne.symm hDsrc2)]
    exact hf2
  have hw1fs : (export_entity env cache cfg t1 e1 w).fs = fs1 := by rw [he1]
  have hw1led : (export_entity env cache cfg t1 e1 w).ledger =
      upsert_map w.ledger t1 e1 cfg.library_name (strTrim n1.path)
        (pjoinParts (pjoin cfg.export_root cfg.export_subdir)
          (if p1.isEmpty then [safe_name n1.title] else p1)) "file" "exported" none := by
    rw [he1]
  -- hypotheses of the collision lemma, on the post-first-call world
  have hbase2 : ((export_entity env cache cfg t1 e1 w).fs.lookup
      (pjoin cfg.export_root cfg.export_subdir)).isSome = true := by
    rw [hw1fs, hpres1 _ (Ne.symm hDbase)]
    exact hbase
  have hpe2 : (export_entity env cache cfg t1 e1 w).fs.pexists (strTrim n2.path) = true := by
    rw [hw1fs]
    exact pexists_of_lookup_file hfs1src2
  have hdir2 : ((export_entity env cache cfg t1 e1 w).fs.lookup
      (dirname (pjoinParts (pjoin cfg.export_root cfg.export_subdir)
        (if p2.isEmpty then [safe_name n2.title] else p2)))).isSome = true := by
    rw [hw1fs, hDeq, hpres1 _ (Ne.symm hDdir)]
    exact hdirD
  have hm2' : get_map (export_entity env cache cfg t1 e1 w).ledger e2 = none := by
    rw [hw1led]
    unfold upsert_map get_map
    rw [lookup_dictInsert_ne _ _ he]
    exact hm2
  have hDisSome : (fs1.lookup (pjoinParts (pjoin cfg.export_root cfg.export_subdir)
      (if p1.isEmpty then [safe_name n1.title] else p1))).isSome = true := by
    rcases hnode1 with ⟨_, hsym⟩ | ⟨dv, io, hfile, _⟩
    · rw [hsym]
      rfl
    · rw [hfile]
      rfl
  have hpex2 : (export_entity env cache cfg t1 e1 w).fs.pexists
      (pjoinParts (pjoin cfg.export_root cfg.export_subdir)
        (if p2.isEmpty then [safe_name n2.title] else p2)) = true := by
    rw [hw1fs, hDeq]
    rcases hnode1 with ⟨_, hsym⟩ | ⟨dv, io, hfile, _⟩
    · unfold FS.pexists
      rw [stat_of_symlink_to_file hsym hfs1src1]
      rfl
    · exact pexists_of_lookup_file hfile
  have hguard : ¬ (cfg.link_mode = "hardlink" ∧
      same_inode (export_entity env cache cfg t1 e1 w).fs (strTrim n2.path)
        (pjoinParts (pjoin cfg.export_root cfg.export_subdir)
          (if p2.isEmpty then [safe_name n2.title] else p2)) = true) := by
    rw [hw1fs, hDeq]
    rintro ⟨hhl, hsi⟩
    rcases hnode1 with ⟨hnhl, _⟩ | ⟨dv, io, hfile, hca⟩
    · exact hnhl hhl
    · unfold same_inode at hsi
      rw [stat_of_lookup_file hfs1src2, stat_of_lookup_file hfile] at hsi
      have heq : (dv2, io2) = (dv, io) := by
        simpa using hsi
      rcases hca with hst | ⟨hdv, hio⟩
      · rw [stat_of_lookup_file hf1] at hst
        have : (dv1, io1) = (dv, io) := Option.some_inj.mp hst
        exact hne (this.trans heq.symm)
      · have : io2 = io := congrArg Prod.snd heq
        omega
  have hdir2suf : ((export_entity env cache cfg t1 e1 w).fs.lookup (dirname
      ((pathSplitExt (pjoinParts (pjoin cfg.export_root cfg.export_subdir)
        (if p2.isEmpty then [safe_name n2.title] else p2))).1 ++ "__" ++ e2 ++
       (pathSplitExt (pjoinParts (pjoin cfg.export_root cfg.export_subdir)
        (if p2.isEmpty then [safe_name n2.title] else p2))).2))).isSome = true := by
    rw [hw1fs, hDeq, hD2dir, hpres1 _ (Ne.symm hDdir)]
    exact hdirD
  have hlex2 : (export_entity env cache cfg t1 e1 w).fs.lookup
      ((pathSplitExt (pjoinParts (pjoin cfg.export_root cfg.export_subdir)
        (if p2.isEmpty then [safe_name n2.title] else p2))).1 ++ "__" ++ e2 ++
       (pathSplitExt (pjoinParts (pjoin cfg.export_root cfg.export_subdir)
        (if p2.isEmpty then [safe_name n2.title] else p2))).2) = none := by
    rw [hw1fs, hDeq, hpres1 _ hD2D]
    exact hD2n
  obtain ⟨fs2, he2, hsome2, hpres2⟩ :=
    export_entity_file_collision_suffix env cache cfg t2 e2
      (export_entity env cache cfg t1 e1 w) n2 p2 h2 ha2 ht2 hg2 hbase2 hs2 hpe2 hx2 hr2
      hdir2 hm2' hpex2 hguard hdir2suf hlex2
  rw [hDeq] at he2 hsome2 hpres2
  refine ⟨?_, ?_, ?_, ?_, ?_⟩
  · rw [he2]
    show List.lookup e1 (dictInsert (export_entity env cache cfg t1 e1 w).ledger e2 _) = _
    rw [lookup_dictInsert_ne _ _ (Ne.symm he), hw1led]
    show List.lookup e1 (dictInsert w.ledger e1 _) = _
    rw [lookup_dictInsert_self]
  · rw [he2]
    show List.lookup e2 (dictInsert (export_entity env cache cfg t1 e1 w).ledger e2 _) = _
    rw [lookup_dictInsert_self]
  · rw [he2]
    show fs2.lookup _ = _
    rw [hpres2 _ (Ne.symm hD2D), hw1fs]
  · rw [hw1fs]
    exact hDisSome
  · rw [he2]
    exact hsome2

def envC5 : EntEnv :=
  [("R", ⟨"R", none, 1, none, true, "", none, none, none⟩),
   ("A", ⟨"A", some "R", 1, none, true, "", none, none, none⟩),
   ("M1", ⟨"Movie.mkv", some "A", 1, none, false, "/s/a.mkv", some "mkv", none, none⟩),
   ("M2", ⟨"Movie.mkv", some "A", 1, none, false, "/s/b.mkv", some "mkv", none, none⟩)]

def cfgC5 : Config := ⟨"lib", "R", "/exp", "sub", "copy", false, none⟩

def wC5 : World :=
  ⟨⟨[("/s/a.mkv", .file 1 1), ("/s/b.mkv", .file 1 2), ("/exp/sub", .dir 0 3),
     ("/exp/sub/A", .dir 0 4)], 10, 0⟩, []⟩

theorem claim_C5_witness :
    get_map (export_entity envC5 [] cfgC5 2 "M2"
        (export_entity envC5 [] cfgC5 1 "M1" wC5)).ledger "M1" =
      some ⟨"lib", strTrim "/s/a.mkv", "/exp/sub/A/Movie.mkv", "file", "exported", 1, none⟩ ∧
    get_map (export_entity envC5 [] cfgC5 2 "M2"
        (export_entity envC5 [] cfgC5 1 "M1" wC5)).ledger "M2" =
      some ⟨"lib", strTrim "/s/b.mkv", "/exp/sub/A/Movie__M2.mkv", "file", "exported", 2,
        none⟩ ∧
    (export_entity envC5 [] cfgC5 2 "M2"
        (export_entity envC5 [] cfgC5 1 "M1" wC5)).fs.lookup "/exp/sub/A/Movie.mkv" =
      (export_entity envC5 [] cfgC5 1 "M1" wC5).fs.lookup "/exp/sub/A/Movie.mkv" ∧
    ((export_entity envC5 [] cfgC5 1 "M1" wC5).fs.lookup "/exp/sub/A/Movie.mkv").isSome =
      true ∧
    ((export_entity envC5 [] cfgC5 2 "M2"
        (export_entity envC5 [] cfgC5 1 "M1" wC5)).fs.lookup
      "/exp/sub/A/Movie__M2.mkv").isSome = true :=
  claim_C5_collision_both_exported envC5 [] cfgC5 1 2 "M1" "M2" wC5
    ⟨"Movie.mkv", some "A", 1, none, false, "/s/a.mkv", some "mkv", none, none⟩
    ⟨"Movie.mkv", some "A", 1, none, false, "/s/b.mkv", some "mkv", none, none⟩
    ["A", "Movie.mkv"] ["A", "Movie.mkv"] "/exp/sub/A/Movie.mkv" "/exp/sub/A/Movie__M2.mkv"
    1 1 1 2
    (by decide) (by decide) (by decide) (by decide) (by decide) (by decide) (by decide)
    (by decide) (by decide) (by decide) (by decide) (by decide) (by decide) (by decide)
    (by decide) (Or.inl (by decide)) (Or.inl (by decide)) (by decide) (by decide)
    (by decide) (by decide) (by decide) (by decide) (by decide) (by decide) (by decide)
    (by decide) (by decide) (by decide) (by decide)

end JE
